import Mathlib

/-!
Verification development for the managed-solutions manufacturing-analytics
backend.  Python source functions are shallowly embedded as executable Lean
definitions: strings become `List Char`, loosely-typed Python values become
the `PyVal` sum type, database tables become lists of rows, and caught
exceptions become explicit `Option`/error results.
-/

set_option maxHeartbeats 1000000

namespace MSML

/-! ## Python string primitives -/

/-- ASCII whitespace recognised by Python's `str.strip()` / `str.isspace()`. -/
def isPySpace (c : Char) : Bool :=
  c = ' ' ∨ c = '\t' ∨ c = '\n' ∨ c = '\x0d' ∨ c = '\x0b' ∨ c = '\x0c'

/-- Python `str.strip()`: remove leading and trailing whitespace. -/
def pyStrip (s : List Char) : List Char :=
  (s.dropWhile isPySpace).rdropWhile isPySpace

/-- The ASCII lower/upper letter pairs. -/
def casePairs : List (Char × Char) :=
  [('a', 'A'), ('b', 'B'), ('c', 'C'), ('d', 'D'), ('e', 'E'), ('f', 'F'),
   ('g', 'G'), ('h', 'H'), ('i', 'I'), ('j', 'J'), ('k', 'K'), ('l', 'L'),
   ('m', 'M'), ('n', 'N'), ('o', 'O'), ('p', 'P'), ('q', 'Q'), ('r', 'R'),
   ('s', 'S'), ('t', 'T'), ('u', 'U'), ('v', 'V'), ('w', 'W'), ('x', 'X'),
   ('y', 'Y'), ('z', 'Z')]

/-- ASCII case of Python's `str.upper()` on a single character. -/
def pyUpperChar (c : Char) : Char :=
  ((casePairs.find? (fun p => p.1 = c)).map Prod.snd).getD c

/-- ASCII case of Python's `str.lower()` on a single character. -/
def pyLowerChar (c : Char) : Char :=
  ((casePairs.find? (fun p => p.2 = c)).map Prod.fst).getD c

def pyUpper (s : List Char) : List Char := s.map pyUpperChar
def pyLower (s : List Char) : List Char := s.map pyLowerChar

def isAsciiDigit (c : Char) : Bool := '0' ≤ c ∧ c ≤ '9'

def digitVal (c : Char) : Nat := c.toNat - '0'.toNat

/-- Value of a decimal digit string. -/
def decVal (s : List Char) : Nat := s.foldl (fun a c => 10 * a + digitVal c) 0

/-- Decimal digit characters of a natural number. -/
def natChars (n : Nat) : List Char := Nat.toDigits 10 n

def intChars (i : Int) : List Char :=
  if i < 0 then '-' :: natChars i.natAbs else natChars i.natAbs

/-- Fuel-indexed scanner for `removeSub`; the wrapper supplies
`fuel = s.length`, which suffices because each step strictly shortens
the remaining input. -/
def removeSubFuel (pat : List Char) : Nat → List Char → List Char
  | _, [] => []
  | 0, s => s
  | fuel + 1, c :: rest =>
    if pat ≠ [] ∧ pat.isPrefixOf (c :: rest) then
      removeSubFuel pat fuel (List.drop (pat.length - 1) rest)
    else
      c :: removeSubFuel pat fuel rest

/-- Python `str.replace(pat, '')` for a nonempty pattern: remove every
leftmost non-overlapping occurrence of `pat`. -/
def removeSub (pat : List Char) (s : List Char) : List Char :=
  removeSubFuel pat s.length s

/-- Decidable substring containment (`pat in s` for nonempty `pat`). -/
def containsSub (pat : List Char) : List Char → Bool
  | [] => false
  | c :: rest => pat.isPrefixOf (c :: rest) || containsSub pat rest

/-- Python `str.split(sep)` for a single-character separator. -/
def pySplit (sep : Char) : List Char → List (List Char)
  | [] => [[]]
  | c :: rest =>
    let r := pySplit sep rest
    if c = sep then [] :: r
    else (c :: r.headI) :: r.tail

/-- Python `int(str)`: optional surrounding whitespace, optional sign,
nonempty digit run (underscore digit separators are not modelled). -/
def pyIntParse (s : List Char) : Option Int :=
  match pyStrip s with
  | '-' :: rest =>
    if rest ≠ [] ∧ rest.all isAsciiDigit then some (-(decVal rest : Int)) else none
  | '+' :: rest =>
    if rest ≠ [] ∧ rest.all isAsciiDigit then some ((decVal rest : Int)) else none
  | t => if t ≠ [] ∧ t.all isAsciiDigit then some ((decVal t : Int)) else none

/-- Python `float(str)` as an exact rational: optional whitespace and sign,
decimal mantissa (`d`, `d.`, `.d`, `d.d`), optional exponent
(`inf`/`nan` and hexadecimal forms are not modelled). -/
def pyFloatParse (s : List Char) : Option ℚ :=
  let t := pyStrip s
  let (sign, body) :=
    match t with
    | '-' :: rest => ((-1 : ℚ), rest)
    | '+' :: rest => ((1 : ℚ), rest)
    | _ => ((1 : ℚ), t)
  let (mantissa, expPart) :=
    match pySplit 'e' (pyLower body) with
    | [m] => (m, some ([] : List Char))
    | [m, e] => (m, if e = [] then none else some e)
    | _ => (body, none)
  match expPart with
  | none => none
  | some e =>
    let exp? : Option Int :=
      if e = [] then some 0
      else match e with
        | '-' :: d => if d ≠ [] ∧ d.all isAsciiDigit then some (-(decVal d : Int)) else none
        | '+' :: d => if d ≠ [] ∧ d.all isAsciiDigit then some (decVal d : Int) else none
        | d => if d.all isAsciiDigit then some (decVal d : Int) else none
    match exp? with
    | none => none
    | some ex =>
      let mval : Option ℚ :=
        match pySplit '.' mantissa with
        | [ip] =>
          if ip ≠ [] ∧ ip.all isAsciiDigit then some ((decVal ip : ℚ)) else none
        | [ip, fp] =>
          if (ip ≠ [] ∨ fp ≠ []) ∧ ip.all isAsciiDigit ∧ fp.all isAsciiDigit then
            some ((decVal ip : ℚ) + (decVal fp : ℚ) / ((10 : ℚ) ^ fp.length))
          else none
        | _ => none
      match mval with
      | none => none
      | some m => some (sign * m * (10 : ℚ) ^ ex)

/-- Python `int(float)`: truncation toward zero. -/
def ratTrunc (q : ℚ) : Int :=
  if 0 ≤ q.num then ((q.num.toNat / q.den : Nat) : Int)
  else -(((-q.num).toNat / q.den : Nat) : Int)

/-! ## Datetime values -/

/-- A naive `datetime.datetime` value. -/
structure PyDT where
  year : Nat
  month : Nat
  day : Nat
  hour : Nat
  minute : Nat
  second : Nat
  micro : Nat
  deriving DecidableEq, Repr

def isLeapYear (y : Nat) : Bool := (y % 4 = 0 ∧ y % 100 ≠ 0) ∨ y % 400 = 0

/-- Cumulative day counts before each month in a non-leap year. -/
def daysBeforeMonth (m : Nat) : Nat :=
  [0, 0, 31, 59, 90, 120, 151, 181, 212, 243, 273, 304, 334].getD m 0

/-- Days from 0001-01-01 (proleptic Gregorian), as used by
`datetime.date.toordinal`. -/
def toOrdinal (y m d : Nat) : Nat :=
  let py := y - 1
  365 * py + py / 4 - py / 100 + py / 400 +
    daysBeforeMonth m + (if 3 ≤ m ∧ isLeapYear y then 1 else 0) + d

/-- Seconds-since-origin value of a datetime, ignoring microseconds. -/
def dtSeconds (t : PyDT) : Int :=
  (toOrdinal t.year t.month t.day : Int) * 86400 +
    (t.hour : Int) * 3600 + (t.minute : Int) * 60 + (t.second : Int)

/-- `(b - a).total_seconds()` as an exact rational. -/
def dtDiffSeconds (a b : PyDT) : ℚ :=
  ((dtSeconds b - dtSeconds a : Int) : ℚ) + ((b.micro : Int) - (a.micro : Int)) / 1000000

/-- Parse a run of one or two ASCII digits bounded by `lo ≤ v ≤ hi`,
returning the value and the remaining input. -/
def parse2Digit (lo hi : Nat) : List Char → Option (Nat × List Char)
  | a :: b :: rest =>
    if isAsciiDigit a ∧ isAsciiDigit b then
      let v := 10 * digitVal a + digitVal b
      if lo ≤ v ∧ v ≤ hi then some (v, rest) else none
    else if isAsciiDigit a then
      let v := digitVal a
      if lo ≤ v ∧ v ≤ hi then some (v, b :: rest) else none
    else none
  | [a] =>
    if isAsciiDigit a ∧ lo ≤ digitVal a ∧ digitVal a ≤ hi then some (digitVal a, []) else none
  | [] => none

def expectChar (c : Char) : List Char → Option (List Char)
  | x :: rest => if x = c then some rest else none
  | [] => none

/-- `strptime` with format `%Y-%m-%d`, returning the date and the rest. -/
def parseYMD (s : List Char) : Option ((Nat × Nat × Nat) × List Char) := do
  let yd := s.take 4
  if yd.length = 4 ∧ yd.all isAsciiDigit then
    let rest ← expectChar '-' (s.drop 4)
    let (m, rest) ← parse2Digit 1 12 rest
    let rest ← expectChar '-' rest
    let (d, rest) ← parse2Digit 1 31 rest
    pure ((decVal yd, m, d), rest)
  else none

/-- `strptime` with format `%H:%M:%S`, returning the time and the rest. -/
def parseHMS (s : List Char) : Option ((Nat × Nat × Nat) × List Char) := do
  let (h, rest) ← parse2Digit 0 23 s
  let rest ← expectChar ':' rest
  let (mi, rest) ← parse2Digit 0 59 rest
  let rest ← expectChar ':' rest
  let (se, rest) ← parse2Digit 0 59 rest
  pure ((h, mi, se), rest)

/-- `%f`: one to six fractional-second digits, scaled to microseconds. -/
def parseMicro (s : List Char) : Option Nat :=
  if s ≠ [] ∧ s.length ≤ 6 ∧ s.all isAsciiDigit then
    some (decVal s * 10 ^ (6 - s.length))
  else none

/-- `DataConverter.convert_value(..., 'datetime')` string branch: try the
formats `%Y-%m-%d %H:%M:%S`, `%Y-%m-%d %H:%M:%S.%f`, `%Y-%m-%d` in order. -/
def parseDateTimeStr (s : List Char) : Option PyDT := do
  let ((y, mo, d), rest) ← parseYMD s
  match rest with
  | [] => pure ⟨y, mo, d, 0, 0, 0, 0⟩
  | ' ' :: rest => do
    let ((h, mi, se), rest) ← parseHMS rest
    match rest with
    | [] => pure ⟨y, mo, d, h, mi, se, 0⟩
    | '.' :: frac => do
      let us ← parseMicro frac
      pure ⟨y, mo, d, h, mi, se, us⟩
    | _ => none
  | _ => none

/-- `datetime.strftime('%Y-%m-%d %H:%M:%S')`, used for the incremental
start-date parameter and for `str(datetime)` without microseconds. -/
def pad2 (n : Nat) : List Char := if n < 10 then '0' :: natChars n else natChars n

def dtFormat (t : PyDT) : List Char :=
  natChars t.year ++ '-' :: pad2 t.month ++ '-' :: pad2 t.day ++
    ' ' :: pad2 t.hour ++ ':' :: pad2 t.minute ++ ':' :: pad2 t.second

/-! ## Python values and dictionary rows -/

/-- A loosely-typed Python value as it appears in database rows
(floats are modelled as exact rationals). -/
inductive PyVal where
  | vNone
  | vStr (s : List Char)
  | vInt (n : Int)
  | vRat (q : ℚ)
  | vBool (b : Bool)
  | vDT (t : PyDT)
  deriving DecidableEq, Repr

/-- Python truthiness (`bool(v)`). -/
def pyTruthy : PyVal → Bool
  | .vNone => false
  | .vStr s => s ≠ []
  | .vInt n => n ≠ 0
  | .vRat q => q ≠ 0
  | .vBool b => b
  | .vDT _ => true

/-- Python `str(v)` (the float form is a simplified decimal rendering;
no claim depends on it). -/
def pyStr : PyVal → List Char
  | .vNone => 'N' :: 'o' :: 'n' :: 'e' :: []
  | .vStr s => s
  | .vInt n => intChars n
  | .vRat q => intChars q.num ++ '/' :: natChars q.den
  | .vBool b => if b then 'T' :: 'r' :: 'u' :: 'e' :: [] else 'F' :: 'a' :: 'l' :: 's' :: 'e' :: []
  | .vDT t => dtFormat t

/-- A row/dict: association list from column name to value.  `pyGet` is
`dict.get(k)` (absent key ↦ `none`); a present SQL `NULL` is `vNone`. -/
abbrev Row : Type := List (List Char × PyVal)

def pyGet (r : Row) (k : List Char) : Option PyVal :=
  (r.find? (fun p => p.1 = k)).map Prod.snd

/-- `dict.get(k, default)`. -/
def pyGetD (r : Row) (k : List Char) (d : PyVal) : PyVal := (pyGet r k).getD d

/-- `k in dict and dict[k] is not None`. -/
def rowHasVal (r : Row) (k : List Char) : Bool :=
  match pyGet r k with
  | some v => v ≠ .vNone
  | none => false

/-! ## DataConverter (app/utils/data_conversion.py) -/

/-- `DataConverter.clean_machine_id`: `None` stays absent; otherwise convert
to string, strip, remove the substrings `Machine` and `machine`, strip again,
and return absent when the result is empty. -/
def clean_machine_id (machine_id : PyVal) : Option (List Char) :=
  match machine_id with
  | .vNone => none
  | v =>
    let c0 := pyStrip (pyStr v)
    let c1 := removeSub "machine".toList (removeSub "Machine".toList c0)
    let c2 := pyStrip c1
    if c2 = [] then none else some c2

/-- `DataConverter.parse_time_duration`: seconds for a pure-digit string,
`H:M:S` / `M:S` colon forms, otherwise `int(float(s))`; absent on failure. -/
def parse_time_duration (s : List Char) : Option Int :=
  if s = [] ∨ pyStrip s = [] then none
  else if s ≠ [] ∧ s.all isAsciiDigit then some (decVal s)
  else if s.contains ':' then
    match pySplit ':' s with
    | [h, m, sec] =>
      match pyIntParse h, pyIntParse m, pyIntParse sec with
      | some hv, some mv, some sv => some (hv * 3600 + mv * 60 + sv)
      | _, _, _ => none
    | [m, sec] =>
      match pyIntParse m, pyIntParse sec with
      | some mv, some sv => some (mv * 60 + sv)
      | _, _ => none
    | _ => (pyFloatParse s).map ratTrunc
  else (pyFloatParse s).map ratTrunc

/-- The `state_mapping` dictionary of `DataConverter.normalize_job_state`. -/
def stateMapping : List (List Char × List Char) :=
  [("OPEN".toList, "OPENED".toList),
   ("CLOSE".toList, "CLOSED".toList),
   ("COMPLETE".toList, "CLOSED".toList),
   ("COMPLETED".toList, "CLOSED".toList),
   ("FINISH".toList, "CLOSED".toList),
   ("FINISHED".toList, "CLOSED".toList),
   ("START".toList, "OPENED".toList),
   ("STARTED".toList, "OPENED".toList),
   ("RUNNING".toList, "OPENED".toList),
   ("ACTIVE".toList, "OPENED".toList)]

/-- `state_mapping.get(t, t)`. -/
def stateLookup (t : List Char) : List Char :=
  ((stateMapping.find? (fun p => p.1 = t)).map Prod.snd).getD t

/-- `DataConverter.normalize_job_state`: `str(state).strip().upper()`,
then `state_mapping.get(state_str, state_str)`. -/
def normalize_job_state (state : PyVal) : Option (List Char) :=
  match state with
  | .vNone => none
  | v => some (stateLookup (pyUpper (pyStrip (pyStr v))))

/-- `DataConverter.convert_value`.  The result is a Python value
(`none` models Python `None`, returned both for null input and for a
caught conversion failure). -/
def convert_value (value : PyVal) (target : List Char) : Option PyVal :=
  match value with
  | .vNone => none
  | v =>
    let tt := pyLower target
    if tt = "integer".toList ∨ tt = "int".toList ∨ tt = "bigint".toList then
      match v with
      | .vStr s =>
        if pyStrip s = [] then none
        else (pyFloatParse s).map (fun q => .vInt (ratTrunc q))
      | .vInt n => some (.vInt n)
      | .vRat q => some (.vInt (ratTrunc q))
      | .vBool b => some (.vInt (if b then 1 else 0))
      | .vDT _ => none
      | .vNone => none
    else if tt = "float".toList ∨ tt = "double".toList ∨ tt = "decimal".toList ∨
        tt = "numeric".toList then
      match v with
      | .vStr s =>
        if pyStrip s = [] then none else (pyFloatParse s).map .vRat
      | .vInt n => some (.vRat (n : ℚ))
      | .vRat q => some (.vRat q)
      | .vBool b => some (.vRat (if b then 1 else 0))
      | _ => none
    else if tt = "varchar".toList ∨ tt = "text".toList ∨ tt = "char".toList then
      some (.vStr (pyStr v))
    else if tt = "boolean".toList ∨ tt = "bool".toList then
      match v with
      | .vStr s => some (.vBool (pyLower s = "true".toList ∨ pyLower s = "1".toList ∨
          pyLower s = "yes".toList ∨ pyLower s = "on".toList))
      | w => some (.vBool (pyTruthy w))
    else if tt = "datetime".toList ∨ tt = "timestamp".toList then
      match v with
      | .vStr s => (parseDateTimeStr s).map .vDT
      | .vDT t => some (.vDT t)
      | _ => none
    else
      some v

/-- Ordered candidate spellings for each downtime category
(`DataConverter.extract_downtime_categories`). -/
def downtimeFields : List (List Char × List (List Char)) :=
  [("setup_time".toList, ["setuptime".toList, "setup_time".toList, "SetupTime".toList]),
   ("waiting_setup_time".toList,
     ["waitingsetuptime".toList, "waiting_setup_time".toList, "WaitingSetupTime".toList]),
   ("not_feeding_time".toList,
     ["notfeedingtime".toList, "not_feeding_time".toList, "NotFeedingTime".toList]),
   ("adjustment_time".toList,
     ["adjustmenttime".toList, "adjustment_time".toList, "AdjustmentTime".toList]),
   ("dressing_time".toList,
     ["dressingtime".toList, "dressing_time".toList, "DressingTime".toList]),
   ("tooling_time".toList,
     ["toolingtime".toList, "tooling_time".toList, "ToolingTime".toList]),
   ("engineering_time".toList,
     ["engineeringtime".toList, "engineering_time".toList, "EngineeringTime".toList]),
   ("maintenance_time".toList,
     ["maintenancetime".toList, "maintenance_time".toList, "MaintenanceTime".toList]),
   ("buy_in_time".toList, ["buyintime".toList, "buy_in_time".toList, "BuyInTime".toList]),
   ("break_shift_change_time".toList,
     ["breakshiftchangetime".toList, "break_shift_change_time".toList,
      "BreakShiftChangeTime".toList]),
   ("idle_time".toList, ["idletime".toList, "idle_time".toList, "IdleTime".toList]),
   ("running_time".toList,
     ["runningtime".toList, "running_time".toList, "RunningTime".toList,
      "runtime".toList, "run_time".toList])]

/-- First candidate key present with a non-`None` value. -/
def resolveField (job : Row) : List (List Char) → Option PyVal
  | [] => none
  | k :: rest => if rowHasVal job k then pyGet job k else resolveField job rest

/-- Seconds value of one extracted category: strings go through
`parse_time_duration(...) or 0`, other values through
`int(value) if value else 0`.  `int(datetime)` raises `TypeError`,
modelled as `none`, which aborts the extraction. -/
def categorySeconds : Option PyVal → Option Int
  | none => some 0
  | some .vNone => some 0
  | some (.vStr s) => some ((parse_time_duration s).getD 0)
  | some (.vInt n) => some (if n ≠ 0 then n else 0)
  | some (.vRat q) => some (if q ≠ 0 then ratTrunc q else 0)
  | some (.vBool b) => some (if b then 1 else 0)
  | some (.vDT _) => none

/-- `DataConverter.extract_downtime_categories` as an association list in
the fixed category order (`none` models an uncaught exception). -/
def extract_downtime_categories (job : Row) : Option (List (List Char × Int)) :=
  downtimeFields.mapM (fun p => (categorySeconds (resolveField job p.2)).map ((p.1, ·)))

def downtimeLookup (d : List (List Char × Int)) (k : List Char) : Int :=
  ((d.find? (fun p => p.1 = k)).map Prod.snd).getD 0

/-- Result of `DataConverter.calculate_job_metrics`. -/
structure JobMetrics where
  total_downtime : Int
  job_duration : Option Int
  efficiency_percentage : Option ℚ
  downtime : List (List Char × Int)
  deriving DecidableEq, Repr

/-- `dict.get('StartTime') or dict.get('start_time')` (falsy first value
falls through to the second). -/
def getOrKeys (job : Row) (k1 k2 : List Char) : PyVal :=
  let a := pyGetD job k1 .vNone
  if pyTruthy a then a else pyGetD job k2 .vNone

/-- A start/end value after the `isinstance(str)` conversion step:
strings are parsed as datetimes, other values pass through. -/
def coerceDT (v : PyVal) : PyVal :=
  match v with
  | .vStr s => match parseDateTimeStr s with
    | some t => .vDT t
    | none => .vNone
  | w => w

/-- `DataConverter.calculate_job_metrics` (`none` models an uncaught
exception: a failed downtime extraction, or subtracting non-datetime
truthy start/end values). -/
def calculate_job_metrics (job : Row) : Option JobMetrics := do
  let downtime ← extract_downtime_categories job
  let total := (downtime.map Prod.snd).foldl (· + ·) 0 -
    downtimeLookup downtime "running_time".toList
  let noDur : JobMetrics :=
    { total_downtime := max 0 total, job_duration := none,
      efficiency_percentage := none, downtime := downtime }
  let st0 := getOrKeys job "StartTime".toList "start_time".toList
  let en0 := getOrKeys job "EndTime".toList "end_time".toList
  if pyTruthy st0 ∧ pyTruthy en0 then
    let st := coerceDT st0
    let en := coerceDT en0
    if pyTruthy st ∧ pyTruthy en then
      match st, en with
      | .vDT a, .vDT b =>
        let dur : ℚ := dtDiffSeconds a b
        some
          { total_downtime := max 0 total
            job_duration := some (ratTrunc dur)
            efficiency_percentage :=
              some (if dur > 0 then
                (downtimeLookup downtime "running_time".toList : ℚ) / dur * 100 else 0)
            downtime := downtime }
      | _, _ => none
    else some noDur
  else some noDur

/-! ## Destination data model (app/models/analytics.py)

Column names of the declarative models.  SQLAlchemy's declarative
constructor raises `TypeError` for any keyword argument that is not an
attribute of the model class; `pyInitOk` models that check. -/

def machineColumns : List (List Char) :=
  ["id".toList, "machine_id".toList, "name".toList, "location".toList,
   "created_at".toList, "updated_at".toList]

def operatorColumns : List (List Char) :=
  ["id".toList, "emp_id".toList, "name".toList, "department".toList,
   "created_at".toList, "updated_at".toList]

def jobRecordColumns : List (List Char) :=
  ["id".toList, "machine_id".toList, "job_number".toList, "part_number".toList,
   "state".toList, "start_time".toList, "end_time".toList, "emp_id".toList,
   "operator_name".toList, "op_number".toList, "parts_produced".toList,
   "job_duration".toList, "running_time".toList, "setup_time".toList,
   "waiting_setup_time".toList, "not_feeding_time".toList, "adjustment_time".toList,
   "dressing_time".toList, "tooling_time".toList, "engineering_time".toList,
   "maintenance_time".toList, "buy_in_time".toList, "break_shift_change_time".toList,
   "idle_time".toList, "created_at".toList, "updated_at".toList, "synced_at".toList]

/-- Whether a declarative-constructor call with the given keyword-argument
names succeeds (every name must be a model attribute). -/
def pyInitOk (cols kwargs : List (List Char)) : Bool := kwargs.all (· ∈ cols)

/-- Keyword arguments of `Machine(...)` in `_get_or_create_machine_ref`. -/
def machineRefKwargs : List (List Char) :=
  ["machine_id".toList, "name".toList, "is_active".toList]

/-- Keyword arguments of `Operator(...)` in `_get_or_create_operator_ref`
and in `sync_operators`. -/
def operatorInsertKwargs : List (List Char) :=
  ["emp_id".toList, "operator_name".toList, "op_number".toList, "is_active".toList]

/-- Keyword arguments of the converted-job dictionary built by
`_convert_job_data` and splatted into `JobRecord(**processed_job)`. -/
def convertedJobKeys : List (List Char) :=
  ["job_number".toList, "machine_id".toList, "emp_id".toList, "operator_name".toList,
   "part_number".toList, "state".toList, "start_time".toList, "end_time".toList,
   "job_duration".toList, "parts_produced".toList, "op_number".toList,
   "running_time".toList, "setup_time".toList, "waiting_setup_time".toList,
   "not_feeding_time".toList, "adjustment_time".toList, "dressing_time".toList,
   "tooling_time".toList, "engineering_time".toList, "maintenance_time".toList,
   "buy_in_time".toList, "break_shift_change_time".toList, "idle_time".toList]

/-- A persisted `machines` row (only the business key is read by the
modelled operations). -/
structure MachineRow where
  machine_id : List Char
  deriving DecidableEq, Repr

/-- A persisted `operators` row.  `sync_operators` also assigns
`operator_name` and `op_number` on fetched instances, but those are not
mapped columns of `Operator`, so they are plain instance attributes and
are never persisted; only `updated_at` changes on the update path. -/
structure OperatorRow where
  emp_id : PyVal
  name : Option PyVal := none
  department : Option PyVal := none
  updated_at : Nat := 0
  deriving DecidableEq, Repr

/-- The converted-job dictionary produced by `_convert_job_data`
(every key is a `JobRecord` column, see `convertedJobKeys`). -/
structure ConvertedJob where
  job_number : List Char
  machine_id : List Char
  emp_id : List Char
  operator_name : List Char
  part_number : List Char
  state : Option (List Char)
  start_time : Option PyDT
  end_time : Option PyDT
  job_duration : Option Int
  parts_produced : Int
  op_number : Option Int
  running_time : Int
  setup_time : Int
  waiting_setup_time : Int
  not_feeding_time : Int
  adjustment_time : Int
  dressing_time : Int
  tooling_time : Int
  engineering_time : Int
  maintenance_time : Int
  buy_in_time : Int
  break_shift_change_time : Int
  idle_time : Int
  deriving DecidableEq, Repr

/-- A persisted `job_records` row. -/
structure JRec where
  fields : ConvertedJob
  created_at : Nat
  updated_at : Nat
  synced_at : Nat
  deriving DecidableEq, Repr

/-- Destination (analytics) database state touched by the modelled sync
operations.  Downtime records and sync logs are not modelled:
`_process_downtime_records` catches its own exceptions and never alters
job records or batch counts, and sync-log rows are audit-only. -/
structure DBState where
  machines : List MachineRow
  operators : List OperatorRow
  jobRecords : List JRec
  deriving DecidableEq, Repr

/-! ## SyncService (app/services/sync_service.py) -/

/-- `_get_or_create_machine_ref`: look up by business key; on a miss the
`Machine(machine_id=..., name=..., is_active=True)` constructor raises
`TypeError` (`is_active` is not a `Machine` column), which the helper
catches, returning `None` with the state untouched. -/
def get_or_create_machine_ref (st : DBState) (mid : List Char) :
    DBState × Option MachineRow :=
  match st.machines.find? (fun m => m.machine_id = mid) with
  | some m => (st, some m)
  | none =>
    if pyInitOk machineColumns machineRefKwargs then
      ({ st with machines := st.machines ++ [⟨mid⟩] }, some ⟨mid⟩)
    else (st, none)

/-- `_get_or_create_operator_ref`: same pattern; the
`Operator(..., operator_name=..., op_number=..., is_active=True)`
constructor raises `TypeError`, caught inside the helper. -/
def get_or_create_operator_ref (st : DBState) (job : Row) :
    DBState × Option OperatorRow :=
  let empId := pyGetD job "EmpID".toList .vNone
  if ¬ pyTruthy empId then (st, none)
  else
    match st.operators.find? (fun o => o.emp_id = empId) with
    | some o => (st, some o)
    | none =>
      if pyInitOk operatorColumns operatorInsertKwargs then
        ({ st with operators := st.operators ++ [{ emp_id := empId }] },
          some { emp_id := empId })
      else (st, none)

/-- `value or 0` over the result of `convert_value(..., 'int')`. -/
def intValOr0 : Option PyVal → Int
  | some (.vInt n) => if n ≠ 0 then n else 0
  | _ => 0

def intValOpt : Option PyVal → Option Int
  | some (.vInt n) => some n
  | _ => none

def dtValOpt : Option PyVal → Option PyDT
  | some (.vDT t) => some t
  | _ => none

/-- The pure field computation of `_convert_job_data` after the machine id
has been cleaned (timestamps, the pre-1970 end-time sentinel, metrics and
the converted-field dictionary). -/
def convert_job_fields (job : Row) (machineId : List Char) : Option ConvertedJob := do
  let startTime := dtValOpt (convert_value (pyGetD job "StartTime".toList .vNone) "datetime".toList)
  let endTime0 := dtValOpt (convert_value (pyGetD job "EndTime".toList .vNone) "datetime".toList)
  let endTime := match endTime0 with
    | some t => if t.year < 1970 then none else some t
    | none => none
  let metrics ← calculate_job_metrics job
  pure
    { job_number := pyStr (pyGetD job "JobNumber".toList (.vStr []))
      machine_id := machineId
      emp_id := pyStr (pyGetD job "EmpID".toList (.vStr []))
      operator_name := pyStr (pyGetD job "OperatorName".toList (.vStr []))
      part_number := pyStr (pyGetD job "PartNumber".toList (.vStr []))
      state := normalize_job_state (pyGetD job "State".toList .vNone)
      start_time := startTime
      end_time := endTime
      job_duration := metrics.job_duration
      parts_produced := intValOr0 (convert_value (pyGetD job "PartsProduced".toList .vNone) "int".toList)
      op_number := intValOpt (convert_value (pyGetD job "OpNumber".toList .vNone) "int".toList)
      running_time := downtimeLookup metrics.downtime "running_time".toList
      setup_time := downtimeLookup metrics.downtime "setup_time".toList
      waiting_setup_time := downtimeLookup metrics.downtime "waiting_setup_time".toList
      not_feeding_time := downtimeLookup metrics.downtime "not_feeding_time".toList
      adjustment_time := downtimeLookup metrics.downtime "adjustment_time".toList
      dressing_time := downtimeLookup metrics.downtime "dressing_time".toList
      tooling_time := downtimeLookup metrics.downtime "tooling_time".toList
      engineering_time := downtimeLookup metrics.downtime "engineering_time".toList
      maintenance_time := downtimeLookup metrics.downtime "maintenance_time".toList
      buy_in_time := downtimeLookup metrics.downtime "buy_in_time".toList
      break_shift_change_time := downtimeLookup metrics.downtime "break_shift_change_time".toList
      idle_time := downtimeLookup metrics.downtime "idle_time".toList }

/-- `_convert_job_data`: clean the machine id (absent ⇒ the row fails),
run the reference helpers (results unused), then build the converted
dictionary; a raised exception is caught by the caller, hence `none`. -/
def convert_job_data (st : DBState) (job : Row) : DBState × Option ConvertedJob :=
  match clean_machine_id (pyGetD job "MachineID".toList .vNone) with
  | none => (st, none)
  | some mid =>
    let (st1, _machine) := get_or_create_machine_ref st mid
    let (st2, _operator) := get_or_create_operator_ref st1 job
    (st2, convert_job_fields job mid)

/-- State-independent value of `_convert_job_data` (proved equal to the
threaded version in `convert_job_data_fst`/`convert_job_data_snd`). -/
def convertResult (job : Row) : Option ConvertedJob :=
  match clean_machine_id (pyGetD job "MachineID".toList .vNone) with
  | none => none
  | some mid => convert_job_fields job mid

/-- SQL equality against the `start_time` column: a `NULL` on either side
never compares equal. -/
def sqlEqDT : Option PyDT → Option PyDT → Bool
  | some a, some b => a = b
  | _, _ => false

/-- The composite-key predicate of `_process_job_batch`
(`job_number`, `machine_id`, `start_time`). -/
def jrKeyMatches (r : JRec) (pj : ConvertedJob) : Bool :=
  r.fields.job_number = pj.job_number ∧ r.fields.machine_id = pj.machine_id ∧
    sqlEqDT r.fields.start_time pj.start_time

inductive UpsertOutcome where
  | ins
  | upd
  | fail
  deriving DecidableEq, Repr

/-- The upsert step of `_process_job_batch`: `scalar_one_or_none` returns
the single match (update: every converted field copied, `updated_at`
refreshed), `None` (insert), or raises `MultipleResultsFound` (caught by
the per-row handler ⇒ the row counts as failed). -/
def upsert_job_record (now : Nat) (pj : ConvertedJob) (recs : List JRec) :
    List JRec × UpsertOutcome :=
  match recs.filter (fun r => jrKeyMatches r pj) with
  | [] => (recs ++ [{ fields := pj, created_at := now, updated_at := now, synced_at := now }], .ins)
  | [_] =>
    (recs.map (fun r => if jrKeyMatches r pj then { r with fields := pj, updated_at := now } else r),
      .upd)
  | _ => (recs, .fail)

structure BatchCounts where
  inserted : Nat := 0
  updated : Nat := 0
  failedRows : Nat := 0
  deriving DecidableEq, Repr

/-- One iteration of the `_process_job_batch` loop. -/
def process_job_row (now : Nat) (acc : DBState × BatchCounts) (job : Row) :
    DBState × BatchCounts :=
  let (st, c) := acc
  match convert_job_data st job with
  | (st', none) => (st', { c with failedRows := c.failedRows + 1 })
  | (st', some pj) =>
    match upsert_job_record now pj st'.jobRecords with
    | (recs, .ins) => ({ st' with jobRecords := recs }, { c with inserted := c.inserted + 1 })
    | (recs, .upd) => ({ st' with jobRecords := recs }, { c with updated := c.updated + 1 })
    | (recs, .fail) => ({ st' with jobRecords := recs }, { c with failedRows := c.failedRows + 1 })

/-- `_process_job_batch` over one batch. -/
def process_job_batch (now : Nat) (acc : DBState × BatchCounts) (batch : List Row) :
    DBState × BatchCounts :=
  batch.foldl (process_job_row now) acc

/-- Fuel-indexed batching; the wrapper supplies `fuel = length`. -/
def chunksOfFuel (n : Nat) : Nat → List Row → List (List Row)
  | _, [] => []
  | 0, l => [l]
  | fuel + 1, l => l.take n :: chunksOfFuel n fuel (l.drop n)

/-- `jobs_data[i:i + batch_size]` slices of 100. -/
def chunksOf (n : Nat) (l : List Row) : List (List Row) := chunksOfFuel n l.length l

def startTimeKey (job : Row) : Option PyDT := dtValOpt (pyGet job "StartTime".toList)

def dtTotalMicro (t : PyDT) : Int := dtSeconds t * 1000000 + (t.micro : Int)

/-- `machine = :machine_id` (SQL `NULL` never matches). -/
def rowMachineEq (job : Row) (mid : List Char) : Bool :=
  match pyGet job "MachineID".toList with
  | some (.vStr s) => s = mid
  | _ => false

/-- `StartTime >= :start_date` with the parameter string coerced to a
datetime (uncoercible parameters and `NULL` start times are excluded). -/
def rowStartGe (job : Row) (sd : List Char) : Bool :=
  match startTimeKey job, parseDateTimeStr sd with
  | some t, some p => dtTotalMicro p ≤ dtTotalMicro t
  | _, _ => false

/-- `ORDER BY StartTime DESC` comparison (`NULL`s last). -/
def startDescB (a b : Row) : Bool :=
  match startTimeKey a, startTimeKey b with
  | some x, some y => dtTotalMicro y ≤ dtTotalMicro x
  | some _, none => true
  | none, some _ => false
  | none, none => true

/-- `_get_jobs_from_cimco`: the filtered, ordered, limited source query.
The raw table column `machine` is selected as the alias `MachineID`, so
rows are modelled with the aliased key throughout. -/
def get_jobs_from_cimco (limit : Nat) (machineId : Option (List Char))
    (startDate : Option (List Char)) (source : List Row) : List Row :=
  let f1 := match machineId with
    | none => source
    | some mid => source.filter (fun r => rowMachineEq r mid)
  let f2 := match startDate with
    | none => f1
    | some sd => f1.filter (fun r => rowStartGe r sd)
  (f2.insertionSort (fun a b => startDescB a b = true)).take limit

inductive SvcStatus where
  | success
  | error
  deriving DecidableEq, Repr

structure SyncJobsResult where
  status : SvcStatus
  sync_type : List Char
  processed : Nat := 0
  inserted : Nat := 0
  updated : Nat := 0
  failedRows : Nat := 0
  errorMsg : Option (List Char) := none
  deriving DecidableEq, Repr

/-- `SyncService.sync_jobs`.  For an incremental sync without a
(truthy) start date the code evaluates `select(Job.start_time)`, but the
module imports only `Machine, Operator, JobRecord, DowntimeRecord,
SyncLog` from `app.models.analytics`, so the name `Job` is unbound and
`NameError` is raised; the outer handler finalises the sync log as failed
and returns an error payload, leaving the job records untouched. -/
def sync_jobs (limit : Nat) (machineId : Option (List Char)) (incremental : Bool)
    (startDate : Option (List Char)) (source : List Row) (st : DBState) (now : Nat) :
    SyncJobsResult × DBState :=
  let syncType := if incremental then "incremental".toList else "full".toList
  if incremental ∧ (startDate = none ∨ startDate = some []) then
    ({ status := .error, sync_type := syncType,
       errorMsg := some "name 'Job' is not defined".toList }, st)
  else
    let rows := get_jobs_from_cimco limit machineId startDate source
    let (st', c) := (chunksOf 100 rows).foldl (process_job_batch now) (st, {})
    ({ status := .success, sync_type := syncType, processed := rows.length,
       inserted := c.inserted, updated := c.updated, failedRows := c.failedRows }, st')

/-- `EmpID IS NOT NULL AND EmpID != ''`. -/
def empIdPresent (job : Row) : Bool :=
  match pyGet job "EmpID".toList with
  | some (.vStr s) => s ≠ []
  | some .vNone => false
  | some _ => true
  | none => false

/-- A total order on Python values used for `ORDER BY EmpID` (rank by
constructor, then the natural order inside each rank; only determinism
matters to the claims). -/
def pvRank : PyVal → Nat
  | .vNone => 0
  | .vBool _ => 1
  | .vInt _ => 2
  | .vRat _ => 3
  | .vStr _ => 4
  | .vDT _ => 5

def listCharLe : List Char → List Char → Bool
  | [], _ => true
  | _ :: _, [] => false
  | a :: as, b :: bs => if a = b then listCharLe as bs else a.toNat ≤ b.toNat

def pvLe (a b : PyVal) : Bool :=
  if pvRank a ≠ pvRank b then pvRank a ≤ pvRank b
  else match a, b with
    | .vBool x, .vBool y => !x || y
    | .vInt x, .vInt y => x ≤ y
    | .vRat x, .vRat y => x.num * (y.den : Int) ≤ y.num * (x.den : Int)
    | .vStr x, .vStr y => listCharLe x y
    | .vDT x, .vDT y => dtTotalMicro x ≤ dtTotalMicro y
    | _, _ => true

/-- `SELECT DISTINCT` (first occurrence kept). -/
def distinctList (l : List (PyVal × PyVal × PyVal)) : List (PyVal × PyVal × PyVal) :=
  l.foldl (fun acc x => if x ∈ acc then acc else acc ++ [x]) []

/-- `_extract_operators_from_jobs`: distinct `(EmpID, OperatorName,
OpNumber)` tuples of job-log rows with a present employee id, ordered by
`EmpID`. -/
def extract_operators_from_jobs (source : List Row) : List (PyVal × PyVal × PyVal) :=
  let tuples := (source.filter empIdPresent).map (fun job =>
    (pyGetD job "EmpID".toList .vNone,
     pyGetD job "OperatorName".toList .vNone,
     pyGetD job "OpNumber".toList .vNone))
  (distinctList tuples).insertionSort (fun a b => pvLe a.1 b.1 = true)

structure SyncOpsResult where
  status : SvcStatus
  processed : Nat := 0
  inserted : Nat := 0
  updated : Nat := 0
  deriving DecidableEq, Repr

/-- One iteration of the `sync_operators` loop.  On the miss path the
`Operator(emp_id=..., operator_name=..., op_number=..., is_active=True)`
constructor raises `TypeError` (none of `operator_name`, `op_number`,
`is_active` is an `Operator` column); the per-tuple handler catches it and
`continue`s, so the tuple is neither inserted nor counted.  On the hit
path only the mapped column `updated_at` is persisted (see `OperatorRow`). -/
def sync_operator_step (now : Nat) (acc : DBState × Nat × Nat)
    (t : PyVal × PyVal × PyVal) : DBState × Nat × Nat :=
  let (st, ins, upd) := acc
  if ¬ pyTruthy t.1 then acc
  else
    match st.operators.filter (fun o => o.emp_id = t.1) with
    | [_] =>
      ({ st with operators := st.operators.map (fun o =>
          if o.emp_id = t.1 then { o with updated_at := now } else o) },
        ins, upd + 1)
    | [] =>
      if pyInitOk operatorColumns operatorInsertKwargs then
        ({ st with operators := st.operators ++ [{ emp_id := t.1 }] }, ins + 1, upd)
      else acc
    | _ => acc

/-- `SyncService.sync_operators`. -/
def sync_operators (source : List Row) (st : DBState) (now : Nat) :
    SyncOpsResult × DBState :=
  let ops := extract_operators_from_jobs source
  let (st', ins, upd) := ops.foldl (sync_operator_step now) (st, 0, 0)
  ({ status := .success, processed := ops.length, inserted := ins, updated := upd }, st')

/-! ## Maintenance endpoints (app/api/v1/endpoints/maintenance.py)

The raw aggregate queries run over `job_records`; a row is modelled by the
columns those queries read, with timestamps as epoch seconds. -/

structure MaintJob where
  machine_id : List Char
  start_ts : Int
  created_ts : Int
  maintenance_time : Int
  running_time : Int
  job_duration : Int
  parts_produced : Int
  deriving DecidableEq, Repr

/-- `CASE WHEN job_duration > 0 THEN running_time::float / job_duration
ELSE 0 END`. -/
def effTerm (j : MaintJob) : ℚ :=
  if 0 < j.job_duration then (j.running_time : ℚ) / (j.job_duration : ℚ) else 0

def qsum (l : List ℚ) : ℚ := l.foldl (· + ·) 0
def isum (l : List Int) : Int := l.foldl (· + ·) 0

/-- First-occurrence distinct machine ids. -/
def distinctIds (l : List (List Char)) : List (List Char) :=
  l.foldl (fun acc x => if x ∈ acc then acc else acc ++ [x]) []

/-- `start_time >= NOW() - INTERVAL '7 days'`. -/
def inAlertWindow (now : Int) (j : MaintJob) : Bool := now - 7 * 86400 ≤ j.start_ts

def recentJobs (jobs : List MaintJob) (now : Int) : List MaintJob :=
  jobs.filter (inAlertWindow now)

def machineRows (jobs : List MaintJob) (now : Int) (m : List Char) : List MaintJob :=
  (recentJobs jobs now).filter (fun j => j.machine_id = m)

/-- `COUNT(*)` of the machine's trailing-7-day group. -/
def recentCount (jobs : List MaintJob) (now : Int) (m : List Char) : Nat :=
  (machineRows jobs now m).length

/-- `AVG(maintenance_time)` of the group. -/
def avgMaintenance (jobs : List MaintJob) (now : Int) (m : List Char) : ℚ :=
  isum ((machineRows jobs now m).map (·.maintenance_time)) / (recentCount jobs now m : ℚ)

/-- `AVG(CASE WHEN job_duration > 0 ...)` of the group. -/
def avgEfficiency (jobs : List MaintJob) (now : Int) (m : List Char) : ℚ :=
  qsum ((machineRows jobs now m).map effTerm) / (recentCount jobs now m : ℚ)

inductive AlertLevel where
  | critical
  | highMaintenance
  | lowEfficiency
  | normal
  deriving DecidableEq, Repr

/-- The `CASE ... END as alert_level` expression with the literal
thresholds 3600 seconds and 0.7. -/
def classifyAlert (avgM avgE : ℚ) : AlertLevel :=
  if 3600 < avgM ∧ avgE < 7/10 then .critical
  else if 3600 < avgM then .highMaintenance
  else if avgE < 7/10 then .lowEfficiency
  else .normal

/-- The `ORDER BY CASE ... END` severity rank. -/
def alertRank : AlertLevel → Nat
  | .critical => 1
  | .highMaintenance => 2
  | .lowEfficiency => 3
  | .normal => 4

structure Alert where
  machine_id : List Char
  recent_jobs : Nat
  avg_maintenance : ℚ
  avg_efficiency : ℚ
  alert_level : AlertLevel
  deriving DecidableEq, Repr

/-- `ORDER BY severity-case, avg_maintenance DESC`. -/
def alertLeB (a b : Alert) : Bool :=
  if alertRank a.alert_level = alertRank b.alert_level then
    b.avg_maintenance ≤ a.avg_maintenance
  else alertRank a.alert_level ≤ alertRank b.alert_level

/-- `get_maintenance_alerts`: group the trailing-7-day rows by machine,
keep groups with `COUNT(*) >= 3`, keep rows breaching either threshold,
classify and order. -/
def get_maintenance_alerts (jobs : List MaintJob) (now : Int) : List Alert :=
  let machines := distinctIds ((recentJobs jobs now).map (·.machine_id))
  let stats := machines.filterMap (fun m =>
    let n := recentCount jobs now m
    if 3 ≤ n then
      some { machine_id := m, recent_jobs := n,
             avg_maintenance := avgMaintenance jobs now m,
             avg_efficiency := avgEfficiency jobs now m,
             alert_level := classifyAlert (avgMaintenance jobs now m) (avgEfficiency jobs now m)
             : Alert }
    else none)
  let qualified := stats.filter (fun a =>
    3600 < a.avg_maintenance ∨ a.avg_efficiency < 7/10)
  qualified.insertionSort (fun a b => alertLeB a b = true)

/-- `created_at >= NOW() - INTERVAL '30 days'` (summary endpoint). -/
def inSummaryWindow (now : Int) (j : MaintJob) : Bool := now - 30 * 86400 ≤ j.created_ts

/-- The single ungrouped aggregate row of the summary query
(`SUM`/`AVG` over an empty set are SQL `NULL`, hence `Option`). -/
structure SummaryAgg where
  total_jobs : Nat
  jobs_with_maintenance : Nat
  total_maintenance_time : Option Int
  avg_maintenance_time : Option ℚ
  avg_efficiency : Option ℚ
  total_machines : Nat
  deriving DecidableEq, Repr

def summaryAgg (jobs : List MaintJob) (now : Int) : SummaryAgg :=
  let w := jobs.filter (inSummaryWindow now)
  { total_jobs := w.length
    jobs_with_maintenance := (w.filter (fun j => 0 < j.maintenance_time)).length
    total_maintenance_time :=
      if w.isEmpty then none else some (isum (w.map (·.maintenance_time)))
    avg_maintenance_time :=
      if w.isEmpty then none
      else some ((isum (w.map (·.maintenance_time)) : ℚ) / (w.length : ℚ))
    avg_efficiency :=
      if w.isEmpty then none else some (qsum (w.map effTerm) / (w.length : ℚ))
    total_machines := (distinctIds (w.map (·.machine_id))).length }

/-- `round(x, 2)` (Python banker's rounding at two decimals). -/
def round2 (q : ℚ) : ℚ :=
  let x := q * 100
  let f : Int := x.num.fdiv (x.den : Int)
  let frac : ℚ := x - (f : ℚ)
  let r : Int :=
    if frac < 1/2 then f
    else if 1/2 < frac then f + 1
    else if f % 2 = 0 then f else f + 1
  (r : ℚ) / 100

structure SummaryPayload where
  total_jobs : Nat
  jobs_with_maintenance : Nat
  maintenance_rate_percent : ℚ
  total_maintenance_hours : ℚ
  avg_maintenance_minutes : ℚ
  avg_efficiency_percent : ℚ
  total_machines : Nat
  deriving DecidableEq, Repr

inductive SummaryResponse where
  | ok (payload : SummaryPayload)
  | httpError (code : Nat)
  deriving DecidableEq, Repr

/-- `get_maintenance_summary`: the ungrouped aggregate always yields one
row, so the `if not stats` guard never fires; building the response dict
divides `total_maintenance_time` (and the averages) by constants, which
raises `TypeError` when they are SQL `NULL`, and the handler turns any
exception into HTTP 500. -/
def get_maintenance_summary (jobs : List MaintJob) (now : Int) : SummaryResponse :=
  let a := summaryAgg jobs now
  let rate : ℚ :=
    if 0 < a.total_jobs then (a.jobs_with_maintenance : ℚ) / (a.total_jobs : ℚ) * 100 else 0
  match a.total_maintenance_time, a.avg_maintenance_time, a.avg_efficiency with
  | some tm, some am, some ae =>
    .ok { total_jobs := a.total_jobs
          jobs_with_maintenance := a.jobs_with_maintenance
          maintenance_rate_percent := round2 rate
          total_maintenance_hours := round2 ((tm : ℚ) / 3600)
          avg_maintenance_minutes := round2 (am / 60)
          avg_efficiency_percent := round2 (ae * 100)
          total_machines := a.total_machines }
  | _, _, _ => .httpError 500

/-! ## Data endpoint limit guards (app/api/v1/endpoints/data.py) -/

/-- The downstream service invocation a data-endpoint handler would make,
with the arguments it passes. -/
inductive DownstreamCall where
  | tableSample (table : List Char) (limit : Int)
  | joblog (limit : Int) (machine sd ed : Option (List Char))
  | syncJobs (limit : Int) (machineId : Option (List Char)) (incremental : Bool)
      (sd : Option (List Char))
  | syncAll (jobLimit : Int)
  | schemaSample (table : List Char) (limit : Int)
  deriving DecidableEq, Repr

inductive DataApiResponse where
  | badRequest (detail : List Char)
  | svc (call : DownstreamCall)
  deriving DecidableEq, Repr

/-- `GET /cimco/tables/{table}/sample`. -/
def get_cimco_table_sample (table : List Char) (limit : Int) : DataApiResponse :=
  if 100 < limit then .badRequest "Limit cannot exceed 100 rows".toList
  else .svc (.tableSample table limit)

/-- `GET /joblog`. -/
def get_joblog_data (limit : Int) (machine sd ed : Option (List Char)) : DataApiResponse :=
  if 1000 < limit then .badRequest "Limit cannot exceed 1000 rows".toList
  else .svc (.joblog limit machine sd ed)

/-- `POST /sync/jobs`. -/
def sync_job_records (limit : Int) (machineId : Option (List Char)) (incremental : Bool)
    (sd : Option (List Char)) : DataApiResponse :=
  if 5000 < limit then .badRequest "Limit cannot exceed 5000 records".toList
  else .svc (.syncJobs limit machineId incremental sd)

/-- `POST /sync/all`. -/
def trigger_full_sync (jobLimit : Int) : DataApiResponse :=
  if 5000 < jobLimit then .badRequest "Job limit cannot exceed 5000 records".toList
  else .svc (.syncAll jobLimit)

/-- `GET /cimco/schema/sample/{table}`: the limit is silently clamped to
20 and the service is always invoked. -/
def get_table_sample_data (table : List Char) (limit : Int) : DataApiResponse :=
  .svc (.schemaSample table (if 20 < limit then 20 else limit))

/-! ## Auxiliary predicates used by the statements -/

/-- The source states that the job-state mapping sends these to `OPENED`. -/
def openVariants : List (List Char) :=
  ["OPEN".toList, "START".toList, "STARTED".toList, "RUNNING".toList, "ACTIVE".toList]

/-- ... and these to `CLOSED`. -/
def closedVariants : List (List Char) :=
  ["CLOSE".toList, "COMPLETE".toList, "COMPLETED".toList, "FINISH".toList, "FINISHED".toList]

/-- A source row whose conversion, when it succeeds, carries a parseable
(non-`NULL`) start time — the precondition for composite-key matching. -/
def startOk (job : Row) : Bool :=
  match convertResult job with
  | some pj => pj.start_time ≠ none
  | none => true

/-- Some stored job record matches the composite key of `pj`. -/
def hasKeyFor (recs : List JRec) (pj : ConvertedJob) : Bool :=
  recs.any (fun r => jrKeyMatches r pj)

instance : IsTotal Alert (fun a b => alertLeB a b = true) where
  total a b := by
    simp only [alertLeB]
    by_cases h : alertRank a.alert_level = alertRank b.alert_level
    · rw [if_pos h, if_pos h.symm]
      simp only [decide_eq_true_eq]
      exact le_total _ _
    · rw [if_neg h, if_neg (Ne.symm h)]
      simp only [decide_eq_true_eq]
      omega

instance : IsTrans Alert (fun a b => alertLeB a b = true) where
  trans a b c hab hbc := by
    simp only [alertLeB] at hab hbc ⊢
    by_cases h1 : alertRank a.alert_level = alertRank b.alert_level
    · by_cases h2 : alertRank b.alert_level = alertRank c.alert_level
      · rw [if_pos h1] at hab
        rw [if_pos h2] at hbc
        rw [if_pos (h1.trans h2)]
        simp only [decide_eq_true_eq] at hab hbc ⊢
        exact le_trans hbc hab
      · rw [if_neg h2] at hbc
        simp only [decide_eq_true_eq] at hbc
        have hne : alertRank a.alert_level ≠ alertRank c.alert_level := by omega
        rw [if_neg hne]
        simp only [decide_eq_true_eq]
        omega
    · by_cases h2 : alertRank b.alert_level = alertRank c.alert_level
      · rw [if_neg h1] at hab
        simp only [decide_eq_true_eq] at hab
        have hne : alertRank a.alert_level ≠ alertRank c.alert_level := by omega
        rw [if_neg hne]
        simp only [decide_eq_true_eq]
        omega
      · rw [if_neg h1] at hab
        rw [if_neg h2] at hbc
        simp only [decide_eq_true_eq] at hab hbc
        by_cases h3 : alertRank a.alert_level = alertRank c.alert_level
        · exact absurd rfl (show alertRank a.alert_level ≠ alertRank a.alert_level by omega)
        · rw [if_neg h3]
          simp only [decide_eq_true_eq]
          omega

/-! ## Supporting lemmas -/

theorem dropWhile_head_cases (p : Char → Bool) (l : List Char) :
    l.dropWhile p = [] ∨ ∃ c t, l.dropWhile p = c :: t ∧ p c = false := by
  induction l with
  | nil => exact Or.inl rfl
  | cons x xs ih =>
    by_cases h : p x
    · simpa [List.dropWhile, h] using ih
    · exact Or.inr ⟨x, xs, by simp [List.dropWhile, h], by simpa using h⟩

theorem dropWhile_of_head_false (p : Char → Bool) (c : Char) (t : List Char)
    (h : p c = false) : (c :: t).dropWhile p = c :: t := by
  simp [List.dropWhile, h]

theorem dropWhile_self_of_result (p : Char → Bool) (l : List Char) :
    (l.dropWhile p).dropWhile p = l.dropWhile p := by
  rcases dropWhile_head_cases p l with h | ⟨c, t, h, hc⟩
  · simp [h]
  · rw [h]
    exact dropWhile_of_head_false p c t hc

theorem dropWhile_eq_self_of_all (p : Char → Bool) (s : List Char)
    (h : ∀ c ∈ s, p c = false) : s.dropWhile p = s := by
  induction s with
  | nil => rfl
  | cons x xs ih =>
    rw [List.dropWhile_cons, if_neg (by simp [h x (by simp)])]

theorem pyStrip_idem (s : List Char) : pyStrip (pyStrip s) = pyStrip s := by
  unfold pyStrip
  rcases dropWhile_head_cases isPySpace s with h | ⟨c, t, h, hc⟩
  · simp [h, List.rdropWhile]
  · rw [h]
    have hpre := List.rdropWhile_prefix isPySpace (l := c :: t)
    obtain ⟨rest, hrest⟩ := hpre
    match hres : (c :: t).rdropWhile isPySpace with
    | [] => simp [List.rdropWhile]
    | d :: u =>
      have hd : d = c := by
        rw [hres] at hrest
        exact (List.cons.injEq .. ▸ hrest).1
      rw [dropWhile_of_head_false isPySpace d u (hd ▸ hc), ← hres,
        List.rdropWhile_idempotent]

theorem pyStrip_of_all_not_space (s : List Char)
    (h : ∀ c ∈ s, isPySpace c = false) : pyStrip s = s := by
  unfold pyStrip
  rw [dropWhile_eq_self_of_all isPySpace s h]
  unfold List.rdropWhile
  rw [dropWhile_eq_self_of_all isPySpace s.reverse (fun c hc => h c (List.mem_reverse.1 hc))]
  exact List.reverse_reverse s

theorem removeSubFuel_of_not_contains (pat : List Char) (s : List Char) :
    containsSub pat s = false → ∀ fuel, removeSubFuel pat fuel s = s := by
  induction s with
  | nil => intro _ fuel; cases fuel <;> rfl
  | cons c rest ih =>
    intro h fuel
    simp only [containsSub, Bool.or_eq_false_iff] at h
    cases fuel with
    | zero => rfl
    | succ n =>
      simp only [removeSubFuel]
      rw [if_neg (by simp [h.1]), ih h.2 n]

theorem removeSub_of_not_contains (pat s : List Char)
    (h : containsSub pat s = false) : removeSub pat s = s :=
  removeSubFuel_of_not_contains pat s h _

/-- A non-absent result of `clean_machine_id` is a stripped, nonempty
string. -/
theorem clean_machine_id_some_elim (v : PyVal) (s : List Char)
    (h : clean_machine_id v = some s) : pyStrip s = s ∧ s ≠ [] := by
  cases v
  case vNone => simp [clean_machine_id] at h
  all_goals
    simp only [clean_machine_id] at h
    split at h
    · exact absurd h (by simp)
    · rename_i hne
      injection h with h1
      rw [← h1]
      exact ⟨pyStrip_idem _, hne⟩

/-- C4 counterexample: machine-id cleaning is not idempotent.
`'MaMachinechine'` cleans to the non-absent result `'Machine'`, but
cleaning `'Machine'` yields absent, not `'Machine'`. -/
theorem clean_machine_id_not_idempotent :
    clean_machine_id (.vStr "MaMachinechine".toList) = some "Machine".toList ∧
    clean_machine_id (.vStr "Machine".toList) = none ∧
    clean_machine_id (.vStr "Machine".toList) ≠ some "Machine".toList := by
  refine ⟨by decide, by decide, by decide⟩

/-- C4 (amended): applying `clean_machine_id` to a non-absent result
returns that result unchanged provided the result does not itself contain
the substring `Machine` or `machine`; `' Machine007 '` cleans to `'007'`,
and empty or all-whitespace input cleans to absent. -/
theorem clean_machine_id_idempotent_on_stable_results :
    (∀ (v : PyVal) (s : List Char),
      clean_machine_id v = some s →
      containsSub "Machine".toList s = false →
      containsSub "machine".toList s = false →
      clean_machine_id (.vStr s) = some s) ∧
    clean_machine_id (.vStr " Machine007 ".toList) = some "007".toList ∧
    clean_machine_id (.vStr "".toList) = none ∧
    clean_machine_id (.vStr "   ".toList) = none := by
  refine ⟨?_, by decide, by decide, by decide⟩
  intro v s h hM hm
  obtain ⟨hstrip, hne⟩ := clean_machine_id_some_elim v s h
  simp only [clean_machine_id, pyStr]
  rw [hstrip, removeSub_of_not_contains _ _ hM, removeSub_of_not_contains _ _ hm, hstrip,
    if_neg hne]

/-- C4 witness: the amended idempotency applied to the cleaned form of
`' Machine007 '`. -/
theorem clean_machine_id_idempotent_witness :
    clean_machine_id (.vStr "007".toList) = some "007".toList :=
  clean_machine_id_idempotent_on_stable_results.1 (.vStr " Machine007 ".toList) "007".toList
    (by decide) (by decide) (by decide)

theorem pyUpperChar_idem (c : Char) : pyUpperChar (pyUpperChar c) = pyUpperChar c := by
  cases h : casePairs.find? (fun p => p.1 = c) with
  | none =>
    have h1 : pyUpperChar c = c := by simp [pyUpperChar, h]
    rw [h1, h1]
  | some p =>
    have hm := List.mem_of_find?_eq_some h
    have hself : ∀ q ∈ casePairs, pyUpperChar q.2 = q.2 := by decide
    have h1 : pyUpperChar c = p.2 := by simp [pyUpperChar, h]
    rw [h1]
    exact hself p hm

theorem pyUpper_idem (s : List Char) : pyUpper (pyUpper s) = pyUpper s := by
  unfold pyUpper
  rw [List.map_map]
  exact List.map_congr_left (fun c _ => pyUpperChar_idem c)

theorem isPySpace_pyUpperChar (c : Char) : isPySpace (pyUpperChar c) = isPySpace c := by
  cases h : casePairs.find? (fun p => p.1 = c) with
  | none => simp [pyUpperChar, h]
  | some p =>
    have hm := List.mem_of_find?_eq_some h
    have hp : p.1 = c := by simpa using List.find?_some h
    have hws : ∀ q ∈ casePairs, isPySpace q.1 = false ∧ isPySpace q.2 = false := by decide
    have h1 : pyUpperChar c = p.2 := by simp [pyUpperChar, h]
    rw [h1, (hws p hm).2, ← hp, (hws p hm).1]

theorem pyStrip_pyUpper_comm (s : List Char) :
    pyStrip (pyUpper s) = pyUpper (pyStrip s) := by
  have hcomp : isPySpace ∘ pyUpperChar = isPySpace := by
    funext c
    exact isPySpace_pyUpperChar c
  unfold pyStrip pyUpper List.rdropWhile
  rw [List.dropWhile_map, hcomp, ← List.map_reverse, List.dropWhile_map, hcomp,
    ← List.map_reverse]

theorem stateLookup_output_fixed (t : List Char) (hst : pyStrip t = t)
    (hup : pyUpper t = t) :
    normalize_job_state (.vStr (stateLookup t)) = some (stateLookup t) := by
  cases h : stateMapping.find? (fun p => p.1 = t) with
  | some p =>
    have hm := List.mem_of_find?_eq_some h
    have hfix : ∀ q ∈ stateMapping, normalize_job_state (.vStr q.2) = some q.2 := by decide
    have h1 : stateLookup t = p.2 := by simp [stateLookup, h]
    rw [h1]
    exact hfix p hm
  | none =>
    have h1 : stateLookup t = t := by simp [stateLookup, h]
    rw [h1]
    simp only [normalize_job_state, pyStr]
    rw [hst, hup, h1]

/-- The `state_mapping.get` table as the case analysis of the claim. -/
theorem stateLookup_cases (t : List Char) :
    stateLookup t =
      if t ∈ openVariants then "OPENED".toList
      else if t ∈ closedVariants then "CLOSED".toList
      else t := by
  by_cases h1 : t ∈ openVariants
  · rw [if_pos h1]
    simp only [openVariants, List.mem_cons, List.mem_singleton] at h1
    rcases h1 with rfl | rfl | rfl | rfl | rfl | h1 <;> first | decide | simp at h1
  · by_cases h2 : t ∈ closedVariants
    · rw [if_neg h1, if_pos h2]
      simp only [closedVariants, List.mem_cons, List.mem_singleton] at h2
      rcases h2 with rfl | rfl | rfl | rfl | rfl | h2 <;> first | decide | simp at h2
    · rw [if_neg h1, if_neg h2]
      cases h : stateMapping.find? (fun p => p.1 = t) with
      | none => simp [stateLookup, h]
      | some p =>
        exfalso
        have hm := List.mem_of_find?_eq_some h
        have hp : p.1 = t := by simpa using List.find?_some h
        have hk : ∀ q ∈ stateMapping, q.1 ∈ openVariants ∨ q.1 ∈ closedVariants := by decide
        rcases hk p hm with hh | hh
        · exact h1 (hp ▸ hh)
        · exact h2 (hp ▸ hh)

/-- C6: job-state normalization upper-cases and trims, maps the fixed
open/closed vocabularies to `OPENED`/`CLOSED`, passes everything else
through unchanged, is idempotent, and fixes `OPENED` and `CLOSED`. -/
theorem normalize_job_state_spec :
    (∀ s : List Char,
      normalize_job_state (.vStr s) =
        some (if pyUpper (pyStrip s) ∈ openVariants then "OPENED".toList
          else if pyUpper (pyStrip s) ∈ closedVariants then "CLOSED".toList
          else pyUpper (pyStrip s))) ∧
    (∀ (v : PyVal) (s : List Char),
      normalize_job_state v = some s → normalize_job_state (.vStr s) = some s) ∧
    normalize_job_state (.vStr "OPENED".toList) = some "OPENED".toList ∧
    normalize_job_state (.vStr "CLOSED".toList) = some "CLOSED".toList := by
  refine ⟨?_, ?_, by decide, by decide⟩
  · intro s
    simp only [normalize_job_state, pyStr]
    rw [stateLookup_cases]
  · intro v s h
    have hform : ∃ t, pyStrip t = t ∧ pyUpper t = t ∧ s = stateLookup t := by
      cases v
      case vNone => simp [normalize_job_state] at h
      all_goals
        simp only [normalize_job_state, pyStr] at h
        injection h with h1
        refine ⟨pyUpper (pyStrip _), ?_, pyUpper_idem _, h1.symm⟩
        rw [pyStrip_pyUpper_comm, pyStrip_idem]
    obtain ⟨t, hst, hup, rfl⟩ := hform
    exact stateLookup_output_fixed t hst hup

/-- C6 witness: the normalization theorem applied at `"started"` (mapped
case) and at its own output (idempotency case). -/
theorem normalize_job_state_spec_witness :
    normalize_job_state (.vStr "started".toList) = some "OPENED".toList ∧
    normalize_job_state (.vStr "OPENED".toList) = some "OPENED".toList := by
  constructor
  · have h := normalize_job_state_spec.1 "started".toList
    simpa using h
  · exact normalize_job_state_spec.2.1 (.vStr "started".toList) "OPENED".toList (by decide)

theorem digit_not_space (c : Char) (h : isAsciiDigit c = true) : isPySpace c = false := by
  cases hs : isPySpace c
  · rfl
  · exfalso
    simp only [isPySpace, decide_eq_true_eq] at hs
    rcases hs with rfl | rfl | rfl | rfl | rfl | rfl <;> exact absurd h (by decide)

theorem digit_ne_char (c d : Char) (h : isAsciiDigit c = true) (hd : isAsciiDigit d = false) :
    c ≠ d := by
  intro he
  rw [he] at h
  rw [h] at hd
  exact absurd hd (by simp)

theorem pyIntParse_digits (a : List Char) (h1 : a ≠ []) (h2 : a.all isAsciiDigit = true) :
    pyIntParse a = some ((decVal a : Int)) := by
  have hmem := List.all_eq_true.1 h2
  have hstrip : pyStrip a = a :=
    pyStrip_of_all_not_space a (fun c hc => digit_not_space c (hmem c hc))
  simp only [pyIntParse, hstrip]
  split
  · exact absurd (hmem '-' (by simp)) (by decide)
  · exact absurd (hmem '+' (by simp)) (by decide)
  · rw [if_pos ⟨h1, h2⟩]

theorem pySplit_no_sep (sep : Char) (l : List Char) (h : ∀ c ∈ l, c ≠ sep) :
    pySplit sep l = [l] := by
  induction l with
  | nil => rfl
  | cons x xs ih =>
    have hx : x ≠ sep := h x (by simp)
    simp only [pySplit]
    rw [ih (fun c hc => h c (by simp [hc]))]
    simp [hx]

theorem pySplit_append (sep : Char) (a rest : List Char) (h : ∀ c ∈ a, c ≠ sep) :
    pySplit sep (a ++ sep :: rest) = a :: pySplit sep rest := by
  induction a with
  | nil => simp [pySplit]
  | cons x xs ih =>
    have hx : x ≠ sep := h x (by simp)
    simp only [List.cons_append, pySplit, List.append_eq]
    rw [ih (fun c hc => h c (by simp [hc]))]
    simp [hx]

theorem digits_strip_self (s : List Char) (h : ∀ c ∈ s, isAsciiDigit c = true ∨ c = ':') :
    pyStrip s = s := by
  refine pyStrip_of_all_not_space s (fun c hc => ?_)
  rcases h c hc with hd | rfl
  · exact digit_not_space c hd
  · decide

/-- C7: duration parsing — pure digits are seconds; `H:M:S` and `M:S`
colon forms use the positional formulas; strings that are neither pure
digits nor two- or three-part colon forms go through float-to-int
truncation; the claim's concrete examples; empty / whitespace / garbage
yield absent. -/
theorem parse_time_duration_spec :
    (∀ s : List Char, s ≠ [] → s.all isAsciiDigit = true →
      parse_time_duration s = some ((decVal s : Int))) ∧
    (∀ a b c : List Char,
      a ≠ [] → a.all isAsciiDigit = true →
      b ≠ [] → b.all isAsciiDigit = true →
      c ≠ [] → c.all isAsciiDigit = true →
      parse_time_duration (a ++ ':' :: (b ++ ':' :: c)) =
        some ((decVal a : Int) * 3600 + (decVal b : Int) * 60 + (decVal c : Int))) ∧
    (∀ a b : List Char,
      a ≠ [] → a.all isAsciiDigit = true →
      b ≠ [] → b.all isAsciiDigit = true →
      parse_time_duration (a ++ ':' :: b) =
        some ((decVal a : Int) * 60 + (decVal b : Int))) ∧
    (∀ s : List Char, s ≠ [] → pyStrip s ≠ [] → s.all isAsciiDigit = false →
      s.contains ':' = false →
      parse_time_duration s = (pyFloatParse s).map ratTrunc) ∧
    (parse_time_duration "01:02:03".toList = some 3723 ∧
      parse_time_duration "02:30".toList = some 150 ∧
      parse_time_duration "45".toList = some 45) ∧
    (parse_time_duration "".toList = none ∧
      parse_time_duration "abc".toList = none ∧
      parse_time_duration "   ".toList = none) := by
  have hColonNotDigit : isAsciiDigit ':' = false := by decide
  refine ⟨?_, ?_, ?_, ?_, ⟨by decide, by decide, by decide⟩, ⟨by decide, by decide, by decide⟩⟩
  · intro s h1 h2
    have hmem := List.all_eq_true.1 h2
    have hstrip : pyStrip s = s :=
      pyStrip_of_all_not_space s (fun c hc => digit_not_space c (hmem c hc))
    simp only [parse_time_duration]
    rw [if_neg (by simp [h1, hstrip]), if_pos ⟨h1, h2⟩]
  · intro a b c ha1 ha2 hb1 hb2 hc1 hc2
    have hma := List.all_eq_true.1 ha2
    have hmb := List.all_eq_true.1 hb2
    have hmc := List.all_eq_true.1 hc2
    set s := a ++ ':' :: (b ++ ':' :: c) with hs
    have hne : s ≠ [] := by
      cases a <;> simp [hs]
    have hstrip : pyStrip s = s := by
      refine digits_strip_self s (fun x hx => ?_)
      rw [hs] at hx
      simp only [List.mem_append, List.mem_cons] at hx
      rcases hx with hx | rfl | hx | rfl | hx
      · exact Or.inl (hma x hx)
      · exact Or.inr rfl
      · exact Or.inl (hmb x hx)
      · exact Or.inr rfl
      · exact Or.inl (hmc x hx)
    have hallF : s.all isAsciiDigit = false := by
      rcases hall : s.all isAsciiDigit with _ | _
      · rfl
      · exact absurd (List.all_eq_true.1 hall ':' (by simp [hs])) (by simp [hColonNotDigit])
    have hcontains : s.contains ':' = true := List.elem_eq_true_of_mem (by simp [hs])
    simp only [parse_time_duration]
    rw [if_neg (by simp [hne, hstrip]), if_neg (by simp [hallF]), if_pos hcontains,
      pySplit_append ':' a _ (fun x hx => digit_ne_char x ':' (hma x hx) hColonNotDigit),
      pySplit_append ':' b _ (fun x hx => digit_ne_char x ':' (hmb x hx) hColonNotDigit),
      pySplit_no_sep ':' c (fun x hx => digit_ne_char x ':' (hmc x hx) hColonNotDigit)]
    simp only [pyIntParse_digits a ha1 ha2, pyIntParse_digits b hb1 hb2,
      pyIntParse_digits c hc1 hc2]
  · intro a b ha1 ha2 hb1 hb2
    have hma := List.all_eq_true.1 ha2
    have hmb := List.all_eq_true.1 hb2
    set s := a ++ ':' :: b with hs
    have hne : s ≠ [] := by
      cases a <;> simp [hs]
    have hstrip : pyStrip s = s := by
      refine digits_strip_self s (fun x hx => ?_)
      rw [hs] at hx
      simp only [List.mem_append, List.mem_cons] at hx
      rcases hx with hx | rfl | hx
      · exact Or.inl (hma x hx)
      · exact Or.inr rfl
      · exact Or.inl (hmb x hx)
    have hallF : s.all isAsciiDigit = false := by
      rcases hall : s.all isAsciiDigit with _ | _
      · rfl
      · exact absurd (List.all_eq_true.1 hall ':' (by simp [hs])) (by simp [hColonNotDigit])
    have hcontains : s.contains ':' = true := List.elem_eq_true_of_mem (by simp [hs])
    simp only [parse_time_duration]
    rw [if_neg (by simp [hne, hstrip]), if_neg (by simp [hallF]), if_pos hcontains,
      pySplit_append ':' a _ (fun x hx => digit_ne_char x ':' (hma x hx) hColonNotDigit),
      pySplit_no_sep ':' b (fun x hx => digit_ne_char x ':' (hmb x hx) hColonNotDigit)]
    simp only [pyIntParse_digits a ha1 ha2, pyIntParse_digits b hb1 hb2]
  · intro s h1 h2 h3 h4
    simp only [parse_time_duration]
    rw [if_neg (by simp [h1, h2]), if_neg (by simp [h3]),
      if_neg (show ¬s.contains ':' = true by rw [h4]; simp)]

/-- C7 witness: the colon-form conjunct applied at `01:02:03`, and the
digit conjunct at `45`. -/
theorem parse_time_duration_spec_witness :
    parse_time_duration ("01".toList ++ ':' :: ("02".toList ++ ':' :: "03".toList)) =
      some 3723 ∧
    parse_time_duration "45".toList = some 45 := by
  constructor
  · have h := parse_time_duration_spec.2.1 "01".toList "02".toList "03".toList
      (by decide) (by decide) (by decide) (by decide) (by decide) (by decide)
    rw [h]
    decide
  · have h := parse_time_duration_spec.1 "45".toList (by decide) (by decide)
    rw [h]
    decide

/-- C9: each data-endpoint handler rejects an over-cap limit with HTTP 400
before any downstream call (100 for table sample, 1000 for job-log, 5000
for sync-jobs and sync-all), while the schema-sample handler silently
clamps limits above 20 to 20 and proceeds with the service call. -/
theorem limit_guards_spec :
    (∀ (table : List Char) (limit : Int), 100 < limit →
      get_cimco_table_sample table limit =
        .badRequest "Limit cannot exceed 100 rows".toList) ∧
    (∀ (limit : Int) (machine sd ed : Option (List Char)), 1000 < limit →
      get_joblog_data limit machine sd ed =
        .badRequest "Limit cannot exceed 1000 rows".toList) ∧
    (∀ (limit : Int) (machineId : Option (List Char)) (incremental : Bool)
        (sd : Option (List Char)), 5000 < limit →
      sync_job_records limit machineId incremental sd =
        .badRequest "Limit cannot exceed 5000 records".toList) ∧
    (∀ jobLimit : Int, 5000 < jobLimit →
      trigger_full_sync jobLimit =
        .badRequest "Job limit cannot exceed 5000 records".toList) ∧
    (∀ (table : List Char) (limit : Int), 20 < limit →
      get_table_sample_data table limit = .svc (.schemaSample table 20)) := by
  refine ⟨?_, ?_, ?_, ?_, ?_⟩ <;> intros <;>
    simp [get_cimco_table_sample, get_joblog_data, sync_job_records, trigger_full_sync,
      get_table_sample_data, *]

/-- C9 witness: each guard evaluated just past its cap. -/
theorem limit_guards_spec_witness :
    get_cimco_table_sample "joblog_ob".toList 101 =
      .badRequest "Limit cannot exceed 100 rows".toList ∧
    get_joblog_data 1001 none none none =
      .badRequest "Limit cannot exceed 1000 rows".toList ∧
    sync_job_records 5001 none true none =
      .badRequest "Limit cannot exceed 5000 records".toList ∧
    trigger_full_sync 5001 = .badRequest "Job limit cannot exceed 5000 records".toList ∧
    get_table_sample_data "joblog_ob".toList 21 =
      .svc (.schemaSample "joblog_ob".toList 20) :=
  ⟨limit_guards_spec.1 _ 101 (by decide),
   limit_guards_spec.2.1 1001 none none none (by decide),
   limit_guards_spec.2.2.1 5001 none true none (by decide),
   limit_guards_spec.2.2.2.1 5001 (by decide),
   limit_guards_spec.2.2.2.2 _ 21 (by decide)⟩

/-- C10: with no `job_records` row created in the trailing 30 days, the
aggregate row has `total_jobs = 0` and `NULL` maintenance sum/averages,
and the summary handler fails with HTTP 500 instead of returning a
zero-valued summary. -/
theorem maintenance_summary_empty_window_500 :
    ∀ (jobs : List MaintJob) (now : Int),
      jobs.filter (inSummaryWindow now) = [] →
      summaryAgg jobs now =
        { total_jobs := 0, jobs_with_maintenance := 0, total_maintenance_time := none,
          avg_maintenance_time := none, avg_efficiency := none, total_machines := 0 } ∧
      get_maintenance_summary jobs now = .httpError 500 := by
  intro jobs now h
  have hagg : summaryAgg jobs now =
      { total_jobs := 0, jobs_with_maintenance := 0, total_maintenance_time := none,
        avg_maintenance_time := none, avg_efficiency := none, total_machines := 0 } := by
    simp [summaryAgg, h, distinctIds]
  refine ⟨hagg, ?_⟩
  simp [get_maintenance_summary, hagg]

/-- C10 witness: a single job created outside the 30-day window. -/
theorem maintenance_summary_empty_window_500_witness :
    get_maintenance_summary
      [{ machine_id := "007".toList, start_ts := 0, created_ts := -31 * 86400,
         maintenance_time := 100, running_time := 10, job_duration := 20,
         parts_produced := 1 }] 0 = .httpError 500 :=
  (maintenance_summary_empty_window_500 _ 0 (by decide)).2

/-- C1 (exhibiting the defect): an incremental `sync_jobs` call without a
start date always raises `NameError` (the `Job` model is never imported),
so the operation reports an error status and touches no job records —
it never reaches the source query or the upsert phase. -/
theorem sync_jobs_incremental_name_error :
    ∀ (limit : Nat) (machineId : Option (List Char)) (source : List Row)
      (st : DBState) (now : Nat),
      sync_jobs limit machineId true none source st now =
        ({ status := .error, sync_type := "incremental".toList,
           errorMsg := some "name 'Job' is not defined".toList }, st) := by
  intro limit machineId source st now
  rfl

/-- C3 (exhibiting the defect): `sync_operators` never inserts an
operator — the insert branch's constructor call always raises `TypeError`
(`operator_name`, `op_number`, `is_active` are not `Operator` columns), so
`operators_inserted` is always 0 and the operator table never grows; for
the concrete source row (`EmpID='E1'`, `OperatorName='Alice'`,
`OpNumber=7`) against an empty destination, the tuple is processed but
nothing is inserted. -/
theorem sync_operators_never_inserts :
    (∀ (source : List Row) (st : DBState) (now : Nat),
      (sync_operators source st now).1.inserted = 0 ∧
      (sync_operators source st now).2.operators.length = st.operators.length ∧
      (sync_operators source st now).1.status = .success) ∧
    sync_operators
      [[("EmpID".toList, .vStr "E1".toList), ("OperatorName".toList, .vStr "Alice".toList),
        ("OpNumber".toList, .vInt 7)]]
      ⟨[], [], []⟩ 0 =
      ({ status := .success, processed := 1, inserted := 0, updated := 0 }, ⟨[], [], []⟩) := by
  have key : ∀ (now : Nat) (l : List (PyVal × PyVal × PyVal)) (st : DBState) (i u : Nat),
      (l.foldl (sync_operator_step now) (st, i, u)).2.1 = i ∧
      (l.foldl (sync_operator_step now) (st, i, u)).1.operators.length =
        st.operators.length := by
    intro now l
    induction l with
    | nil => intro st i u; exact ⟨rfl, rfl⟩
    | cons t ts ih =>
      intro st i u
      simp only [List.foldl_cons]
      have hstep : ((sync_operator_step now (st, i, u) t).2.1 = i ∧
          (sync_operator_step now (st, i, u) t).1.operators.length =
            st.operators.length) := by
        simp only [sync_operator_step]
        split
        · exact ⟨rfl, rfl⟩
        · split
          · simp
          · rw [if_neg (by decide)]
            exact ⟨rfl, rfl⟩
          · exact ⟨rfl, rfl⟩
      obtain ⟨h1, h2⟩ := hstep
      obtain ⟨h3, h4⟩ := ih (sync_operator_step now (st, i, u) t).1
        (sync_operator_step now (st, i, u) t).2.1 (sync_operator_step now (st, i, u) t).2.2
      have hx : ((sync_operator_step now (st, i, u) t).1,
          (sync_operator_step now (st, i, u) t).2.1,
          (sync_operator_step now (st, i, u) t).2.2) =
          sync_operator_step now (st, i, u) t := rfl
      rw [hx] at h3 h4
      exact ⟨h3.trans h1, h4.trans h2⟩
  constructor
  · intro source st now
    obtain ⟨h1, h2⟩ := key now (extract_operators_from_jobs source) st 0 0
    exact ⟨h1, h2, rfl⟩
  · rfl

theorem machine_ref_fst (st : DBState) (mid : List Char) :
    (get_or_create_machine_ref st mid).1 = st := by
  simp only [get_or_create_machine_ref]
  split
  · rfl
  · rw [if_neg (by decide)]

theorem operator_ref_fst (st : DBState) (job : Row) :
    (get_or_create_operator_ref st job).1 = st := by
  simp only [get_or_create_operator_ref]
  split
  · rfl
  · split
    · rfl
    · rw [if_neg (by decide)]

theorem convert_job_data_eq (st : DBState) (job : Row) :
    convert_job_data st job = (st, convertResult job) := by
  simp only [convert_job_data, convertResult]
  split
  · rfl
  · rename_i mid _
    rw [show (get_or_create_machine_ref st mid) =
        (st, (get_or_create_machine_ref st mid).2) from
      Prod.ext (machine_ref_fst st mid) rfl]
    rw [show (get_or_create_operator_ref st job) =
        (st, (get_or_create_operator_ref st job).2) from
      Prod.ext (operator_ref_fst st job) rfl]

theorem sqlEqDT_eq {a b : Option PyDT} (h : sqlEqDT a b = true) : a = b ∧ a ≠ none := by
  cases a <;> cases b <;> simp_all [sqlEqDT]

theorem sqlEqDT_refl {a : Option PyDT} (h : a ≠ none) : sqlEqDT a a = true := by
  cases a
  · exact absurd rfl h
  · simp [sqlEqDT]

theorem hasKeyFor_iff_filter_ne (recs : List JRec) (pj : ConvertedJob) :
    hasKeyFor recs pj = true ↔ recs.filter (fun r => jrKeyMatches r pj) ≠ [] := by
  rw [hasKeyFor, List.any_eq_true]
  constructor
  · rintro ⟨r, hr, hm⟩ hc
    have : r ∈ recs.filter (fun r => jrKeyMatches r pj) := List.mem_filter.2 ⟨hr, hm⟩
    rw [hc] at this
    exact absurd this (List.not_mem_nil r)
  · intro h
    obtain ⟨r, hr⟩ := List.exists_mem_of_ne_nil _ h
    have := List.mem_filter.1 hr
    exact ⟨r, this.1, this.2⟩

/-- A record updated in place keeps matching every composite key it
matched before. -/
theorem updated_keeps_matches {r : JRec} {pj pj' : ConvertedJob} (now : Nat)
    (hpj : jrKeyMatches r pj = true) (hpj' : jrKeyMatches r pj' = true) :
    jrKeyMatches { r with fields := pj, updated_at := now } pj' = true := by
  simp only [jrKeyMatches, Bool.and_eq_true, decide_eq_true_eq] at hpj hpj' ⊢
  obtain ⟨h1, h2, h3⟩ := hpj
  obtain ⟨h1', h2', h3'⟩ := hpj'
  obtain ⟨hse, _⟩ := sqlEqDT_eq h3
  exact ⟨h1 ▸ h1', h2 ▸ h2', hse ▸ h3'⟩

theorem upsert_preserves_hasKey (now : Nat) (pj pj' : ConvertedJob) (recs : List JRec)
    (h : hasKeyFor recs pj' = true) :
    hasKeyFor (upsert_job_record now pj recs).1 pj' = true := by
  simp only [upsert_job_record]
  split
  · simp only [hasKeyFor, List.any_append]
    rw [hasKeyFor] at h
    simp [h]
  · rw [hasKeyFor, List.any_eq_true] at h ⊢
    obtain ⟨r, hr, hm⟩ := h
    refine ⟨if jrKeyMatches r pj then { r with fields := pj, updated_at := now } else r,
      List.mem_map_of_mem _ hr, ?_⟩
    by_cases hmatch : jrKeyMatches r pj = true
    · rw [if_pos hmatch]
      exact updated_keeps_matches now hmatch hm
    · rw [if_neg hmatch]
      exact hm
  · exact h

theorem upsert_no_insert (now : Nat) (pj : ConvertedJob) (recs : List JRec)
    (h : hasKeyFor recs pj = true) :
    (upsert_job_record now pj recs).2 ≠ .ins ∧
      (upsert_job_record now pj recs).1.length = recs.length := by
  simp only [upsert_job_record]
  split
  · rename_i hf
    exact absurd hf ((hasKeyFor_iff_filter_ne recs pj).1 h)
  · exact ⟨by simp, by simp⟩
  · exact ⟨by simp, rfl⟩

theorem process_row_preserves (now : Nat) (acc : DBState × BatchCounts) (job : Row)
    (pj' : ConvertedJob) (h : hasKeyFor acc.1.jobRecords pj' = true) :
    hasKeyFor (process_job_row now acc job).1.jobRecords pj' = true := by
  obtain ⟨st, c⟩ := acc
  simp only [process_job_row, convert_job_data_eq]
  cases hcv : convertResult job with
  | none => exact h
  | some pj =>
    simp only []
    cases hup : upsert_job_record now pj st.jobRecords with
    | mk recs oc =>
      have := upsert_preserves_hasKey now pj pj' st.jobRecords h
      rw [hup] at this
      cases oc <;> exact this

theorem process_row_key_present (now : Nat) (acc : DBState × BatchCounts) (job : Row)
    (pj : ConvertedJob) (hconv : convertResult job = some pj)
    (hstart : pj.start_time ≠ none) :
    hasKeyFor (process_job_row now acc job).1.jobRecords pj = true := by
  obtain ⟨st, c⟩ := acc
  by_cases hk : hasKeyFor st.jobRecords pj = true
  · exact process_row_preserves now (st, c) job pj hk
  · simp only [process_job_row, convert_job_data_eq, hconv]
    have hfilter : st.jobRecords.filter (fun r => jrKeyMatches r pj) = [] := by
      by_contra hne
      exact hk ((hasKeyFor_iff_filter_ne st.jobRecords pj).2 hne)
    simp only [upsert_job_record, hfilter]
    simp only [hasKeyFor, List.any_append, List.any_cons, List.any_nil]
    have : jrKeyMatches
        { fields := pj, created_at := now, updated_at := now, synced_at := now } pj = true := by
      simp [jrKeyMatches, sqlEqDT_refl hstart]
    simp [this]

theorem process_list_preserves (now : Nat) (rows : List Row) :
    ∀ (acc : DBState × BatchCounts) (pj' : ConvertedJob),
      hasKeyFor acc.1.jobRecords pj' = true →
      hasKeyFor ((rows.foldl (process_job_row now) acc).1.jobRecords) pj' = true := by
  induction rows with
  | nil => intro acc pj' h; exact h
  | cons job rest ih =>
    intro acc pj' h
    simp only [List.foldl_cons]
    exact ih _ pj' (process_row_preserves now acc job pj' h)

theorem process_list_key_present (now : Nat) (rows : List Row) :
    ∀ (acc : DBState × BatchCounts) (job : Row) (pj : ConvertedJob),
      job ∈ rows → convertResult job = some pj → pj.start_time ≠ none →
      hasKeyFor ((rows.foldl (process_job_row now) acc).1.jobRecords) pj = true := by
  induction rows with
  | nil => intro _ _ _ hmem; exact absurd hmem (List.not_mem_nil _)
  | cons r rest ih =>
    intro acc job pj hmem hconv hstart
    simp only [List.foldl_cons]
    rcases List.mem_cons.1 hmem with rfl | hmem'
    · exact process_list_preserves now rest _ pj
        (process_row_key_present now acc job pj hconv hstart)
    · exact ih _ job pj hmem' hconv hstart

/-- When every row that converts already has its composite key present,
processing inserts nothing and does not change the number of stored job
records. -/
theorem process_list_no_insert (now : Nat) (rows : List Row) :
    ∀ (st : DBState) (c : BatchCounts),
      (∀ job ∈ rows, ∀ pj, convertResult job = some pj →
        hasKeyFor st.jobRecords pj = true) →
      (rows.foldl (process_job_row now) (st, c)).2.inserted = c.inserted ∧
        (rows.foldl (process_job_row now) (st, c)).1.jobRecords.length =
          st.jobRecords.length := by
  induction rows with
  | nil => intro st c _; exact ⟨rfl, rfl⟩
  | cons job rest ih =>
    intro st c h
    simp only [List.foldl_cons]
    have hstep : (process_job_row now (st, c) job).2.inserted = c.inserted ∧
        (process_job_row now (st, c) job).1.jobRecords.length =
          st.jobRecords.length := by
      simp only [process_job_row, convert_job_data_eq]
      cases hcv : convertResult job with
      | none => exact ⟨rfl, rfl⟩
      | some pj =>
        have hk := h job (by simp) pj hcv
        obtain ⟨hno, hlen⟩ := upsert_no_insert now pj st.jobRecords hk
        simp only []
        cases hup : upsert_job_record now pj st.jobRecords with
        | mk recs oc =>
          rw [hup] at hno hlen
          cases oc
          · exact absurd rfl hno
          · exact ⟨rfl, hlen⟩
          · exact ⟨rfl, hlen⟩
    have hpres : ∀ job' ∈ rest, ∀ pj, convertResult job' = some pj →
        hasKeyFor (process_job_row now (st, c) job).1.jobRecords pj = true := by
      intro job' hmem pj hcv
      exact process_row_preserves now (st, c) job pj (h job' (by simp [hmem]) pj hcv)
    have hx : ((process_job_row now (st, c) job).1, (process_job_row now (st, c) job).2) =
        process_job_row now (st, c) job := rfl
    obtain ⟨h1, h2⟩ := ih (process_job_row now (st, c) job).1
      (process_job_row now (st, c) job).2 hpres
    rw [hx] at h1 h2
    exact ⟨h1.trans hstep.1, h2.trans hstep.2⟩

theorem chunksOfFuel_flatten (n : Nat) : ∀ (fuel : Nat) (l : List Row),
    (chunksOfFuel n fuel l).flatten = l := by
  intro fuel
  induction fuel with
  | zero =>
    intro l
    cases l <;> simp [chunksOfFuel]
  | succ k ih =>
    intro l
    cases l with
    | nil => simp [chunksOfFuel]
    | cons x xs =>
      simp only [chunksOfFuel, List.flatten_cons]
      rw [ih]
      exact List.take_append_drop n (x :: xs)

theorem chunksOf_flatten (n : Nat) (l : List Row) : (chunksOf n l).flatten = l :=
  chunksOfFuel_flatten n l.length l

theorem foldl_batches_eq (now : Nat) : ∀ (chunks : List (List Row))
    (acc : DBState × BatchCounts),
    chunks.foldl (process_job_batch now) acc =
      chunks.flatten.foldl (process_job_row now) acc := by
  intro chunks
  induction chunks with
  | nil => intro acc; rfl
  | cons c cs ih =>
    intro acc
    simp only [List.foldl_cons, List.flatten_cons, List.foldl_append]
    exact ih _

/-- Rows returned by the source query are rows of the source table. -/
theorem get_jobs_subset (limit : Nat) (machineId startDate : Option (List Char))
    (source : List Row) :
    ∀ job ∈ get_jobs_from_cimco limit machineId startDate source, job ∈ source := by
  intro job hmem
  have key : ∀ (l : List Row),
      job ∈ (l.insertionSort (fun a b => startDescB a b = true)).take limit → job ∈ l := by
    intro l h
    exact (List.perm_insertionSort _ _).mem_iff.1 (List.take_subset _ _ h)
  cases machineId <;> cases startDate <;> simp only [get_jobs_from_cimco] at hmem
  · exact key _ hmem
  · exact List.mem_of_mem_filter (key _ hmem)
  · exact List.mem_of_mem_filter (key _ hmem)
  · exact List.mem_of_mem_filter (List.mem_of_mem_filter (key _ hmem))

/-- C2: on a composite-key match `_process_job_batch` updates the existing
`JobRecord` in place — every converted field is copied onto it and its
update timestamp refreshed — instead of inserting; consequently a second
`sync_jobs` run with `incremental=false` over the same source window
reports `jobs_inserted = 0` and adds no duplicate rows. -/
theorem sync_jobs_upsert_idempotent :
    (∀ (now : Nat) (pj : ConvertedJob) (pre post : List JRec) (r : JRec),
      jrKeyMatches r pj = true →
      (∀ x ∈ pre, jrKeyMatches x pj = false) →
      (∀ x ∈ post, jrKeyMatches x pj = false) →
      upsert_job_record now pj (pre ++ r :: post) =
        (pre ++ { r with fields := pj, updated_at := now } :: post, .upd)) ∧
    (∀ (limit : Nat) (machineId sd : Option (List Char)) (source : List Row)
        (st0 : DBState) (n1 n2 : Nat),
      (∀ job ∈ source, startOk job = true) →
      (sync_jobs limit machineId false sd source
          (sync_jobs limit machineId false sd source st0 n1).2 n2).1.inserted = 0 ∧
      (sync_jobs limit machineId false sd source
          (sync_jobs limit machineId false sd source st0 n1).2 n2).2.jobRecords.length =
        (sync_jobs limit machineId false sd source st0 n1).2.jobRecords.length) := by
  constructor
  · intro now pj pre post r hr hpre hpost
    have hfilter : (pre ++ r :: post).filter (fun x => jrKeyMatches x pj) = [r] := by
      rw [List.filter_append, List.filter_cons]
      rw [List.filter_eq_nil_iff.2 (fun x hx => by simp [hpre x hx]),
        List.filter_eq_nil_iff.2 (fun x hx => by simp [hpost x hx])]
      simp [hr]
    have hmap : ∀ (l : List JRec), (∀ x ∈ l, jrKeyMatches x pj = false) →
        l.map (fun x => if jrKeyMatches x pj then
          { x with fields := pj, updated_at := now } else x) = l := by
      intro l hl
      have heq := List.map_congr_left (l := l)
        (f := fun x => if jrKeyMatches x pj then
          { x with fields := pj, updated_at := now } else x)
        (g := id) (fun x hx => by simp [hl x hx])
      rw [heq, List.map_id]
    simp only [upsert_job_record, hfilter]
    refine Prod.ext ?_ rfl
    rw [List.map_append, List.map_cons, hmap pre hpre, hmap post hpost, if_pos hr]
  · intro limit machineId sd source st0 n1 n2 hok
    have hfalse : ¬(false = true ∧ (sd = none ∨ sd = some [])) := by simp
    have hrun : ∀ (st : DBState) (now : Nat),
        sync_jobs limit machineId false sd source st now =
          (let rows := get_jobs_from_cimco limit machineId sd source
           let res := rows.foldl (process_job_row now) (st, {})
           ({ status := .success, sync_type := "full".toList, processed := rows.length,
              inserted := res.2.inserted, updated := res.2.updated,
              failedRows := res.2.failedRows }, res.1)) := by
      intro st now
      simp only [sync_jobs, Bool.false_eq_true, false_and, if_false,
        foldl_batches_eq, chunksOf_flatten]
    set rows := get_jobs_from_cimco limit machineId sd source with hrows
    have hstartOk : ∀ job ∈ rows, ∀ pj, convertResult job = some pj →
        pj.start_time ≠ none := by
      intro job hmem pj hcv
      have := hok job (get_jobs_subset limit machineId sd source job hmem)
      rw [startOk, hcv] at this
      simpa using this
    have hpresent : ∀ job ∈ rows, ∀ pj, convertResult job = some pj →
        hasKeyFor ((rows.foldl (process_job_row n1) (st0, {})).1.jobRecords) pj = true := by
      intro job hmem pj hcv
      exact process_list_key_present n1 rows (st0, {}) job pj hmem hcv
        (hstartOk job hmem pj hcv)
    obtain ⟨hins, hlen⟩ := process_list_no_insert n2 rows
      (rows.foldl (process_job_row n1) (st0, {})).1 {} hpresent
    rw [hrun st0 n1, hrun _ n2]
    exact ⟨hins, hlen⟩

/-- C2 witness: the key-match update at a concrete record, and a concrete
double sync (one source row, empty destination) whose second run inserts
nothing. -/
theorem sync_jobs_upsert_idempotent_witness :
    upsert_job_record 5
      { job_number := "J1".toList, machine_id := "7".toList, emp_id := [],
        operator_name := [], part_number := [], state := none,
        start_time := some ⟨2024, 1, 2, 3, 4, 5, 0⟩, end_time := none,
        job_duration := none, parts_produced := 3, op_number := none,
        running_time := 0, setup_time := 0, waiting_setup_time := 0,
        not_feeding_time := 0, adjustment_time := 0, dressing_time := 0,
        tooling_time := 0, engineering_time := 0, maintenance_time := 0,
        buy_in_time := 0, break_shift_change_time := 0, idle_time := 0 }
      [{ fields :=
          { job_number := "J1".toList, machine_id := "7".toList, emp_id := [],
            operator_name := [], part_number := [], state := none,
            start_time := some ⟨2024, 1, 2, 3, 4, 5, 0⟩, end_time := none,
            job_duration := none, parts_produced := 9, op_number := none,
            running_time := 0, setup_time := 0, waiting_setup_time := 0,
            not_feeding_time := 0, adjustment_time := 0, dressing_time := 0,
            tooling_time := 0, engineering_time := 0, maintenance_time := 0,
            buy_in_time := 0, break_shift_change_time := 0, idle_time := 0 },
         created_at := 1, updated_at := 1, synced_at := 1 }] =
      ([{ fields :=
          { job_number := "J1".toList, machine_id := "7".toList, emp_id := [],
            operator_name := [], part_number := [], state := none,
            start_time := some ⟨2024, 1, 2, 3, 4, 5, 0⟩, end_time := none,
            job_duration := none, parts_produced := 3, op_number := none,
            running_time := 0, setup_time := 0, waiting_setup_time := 0,
            not_feeding_time := 0, adjustment_time := 0, dressing_time := 0,
            tooling_time := 0, engineering_time := 0, maintenance_time := 0,
            buy_in_time := 0, break_shift_change_time := 0, idle_time := 0 },
          created_at := 1, updated_at := 5, synced_at := 1 }], .upd) ∧
    (sync_jobs 100 none false none
      [[("MachineID".toList, .vStr "7".toList),
        ("StartTime".toList, .vDT ⟨2024, 1, 2, 3, 4, 5, 0⟩),
        ("JobNumber".toList, .vStr "J1".toList)]]
      (sync_jobs 100 none false none
        [[("MachineID".toList, .vStr "7".toList),
          ("StartTime".toList, .vDT ⟨2024, 1, 2, 3, 4, 5, 0⟩),
          ("JobNumber".toList, .vStr "J1".toList)]]
        ⟨[], [], []⟩ 1).2 2).1.inserted = 0 := by
  constructor
  · have h := sync_jobs_upsert_idempotent.1 5
      { job_number := "J1".toList, machine_id := "7".toList, emp_id := [],
        operator_name := [], part_number := [], state := none,
        start_time := some ⟨2024, 1, 2, 3, 4, 5, 0⟩, end_time := none,
        job_duration := none, parts_produced := 3, op_number := none,
        running_time := 0, setup_time := 0, waiting_setup_time := 0,
        not_feeding_time := 0, adjustment_time := 0, dressing_time := 0,
        tooling_time := 0, engineering_time := 0, maintenance_time := 0,
        buy_in_time := 0, break_shift_change_time := 0, idle_time := 0 }
      [] []
      { fields :=
          { job_number := "J1".toList, machine_id := "7".toList, emp_id := [],
            operator_name := [], part_number := [], state := none,
            start_time := some ⟨2024, 1, 2, 3, 4, 5, 0⟩, end_time := none,
            job_duration := none, parts_produced := 9, op_number := none,
            running_time := 0, setup_time := 0, waiting_setup_time := 0,
            not_feeding_time := 0, adjustment_time := 0, dressing_time := 0,
            tooling_time := 0, engineering_time := 0, maintenance_time := 0,
            buy_in_time := 0, break_shift_change_time := 0, idle_time := 0 }
        created_at := 1, updated_at := 1, synced_at := 1 }
      (by decide) (by simp) (by simp)
    simpa using h
  · exact (sync_jobs_upsert_idempotent.2 100 none none
      [[("MachineID".toList, .vStr "7".toList),
        ("StartTime".toList, .vDT ⟨2024, 1, 2, 3, 4, 5, 0⟩),
        ("JobNumber".toList, .vStr "J1".toList)]]
      ⟨[], [], []⟩ 1 2 (by decide)).1

theorem mem_foldl_distinct (l : List (List Char)) :
    ∀ (acc : List (List Char)) (x : List Char),
      x ∈ l.foldl (fun acc y => if y ∈ acc then acc else acc ++ [y]) acc ↔
        x ∈ acc ∨ x ∈ l := by
  induction l with
  | nil => intro acc x; simp
  | cons y ys ih =>
    intro acc x
    simp only [List.foldl_cons]
    by_cases hy : y ∈ acc
    · rw [if_pos hy, ih]
      constructor
      · rintro (h | h)
        · exact Or.inl h
        · exact Or.inr (by simp [h])
      · rintro (h | h)
        · exact Or.inl h
        · rcases List.mem_cons.1 h with rfl | h'
          · exact Or.inl hy
          · exact Or.inr h'
    · rw [if_neg hy, ih]
      simp only [List.mem_append, List.mem_singleton, List.mem_cons]
      tauto

theorem mem_distinctIds (l : List (List Char)) (x : List Char) :
    x ∈ distinctIds l ↔ x ∈ l := by
  rw [distinctIds, mem_foldl_distinct]
  simp

theorem distinctIds_nodup (l : List (List Char)) : (distinctIds l).Nodup := by
  have key : ∀ (acc : List (List Char)), acc.Nodup →
      (l.foldl (fun acc y => if y ∈ acc then acc else acc ++ [y]) acc).Nodup := by
    induction l with
    | nil => intro acc h; exact h
    | cons y ys ih =>
      intro acc h
      simp only [List.foldl_cons]
      by_cases hy : y ∈ acc
      · rw [if_pos hy]
        exact ih acc h
      · rw [if_neg hy]
        refine ih _ ?_
        simp [List.nodup_append, h, hy]
  exact key [] List.nodup_nil

/-- Membership characterisation of the alerts list. -/
theorem mem_alerts_iff (jobs : List MaintJob) (now : Int) (a : Alert) :
    a ∈ get_maintenance_alerts jobs now ↔
      (3 ≤ recentCount jobs now a.machine_id ∧
       (3600 < avgMaintenance jobs now a.machine_id ∨
         avgEfficiency jobs now a.machine_id < 7/10) ∧
       a.recent_jobs = recentCount jobs now a.machine_id ∧
       a.avg_maintenance = avgMaintenance jobs now a.machine_id ∧
       a.avg_efficiency = avgEfficiency jobs now a.machine_id ∧
       a.alert_level = classifyAlert (avgMaintenance jobs now a.machine_id)
         (avgEfficiency jobs now a.machine_id)) := by
  constructor
  · intro hmem
    rw [get_maintenance_alerts] at hmem
    have h1 := (List.perm_insertionSort _ _).mem_iff.1 hmem
    have h2 := List.mem_filter.1 h1
    obtain ⟨m, hm, hf⟩ := List.mem_filterMap.1 h2.1
    have hpred := h2.2
    simp only [] at hf
    split at hf
    · rename_i h3
      injection hf with hf
      rw [← hf]
      simp only [decide_eq_true_eq] at hpred
      rw [← hf] at hpred
      simp only [] at hpred
      exact ⟨h3, hpred, rfl, rfl, rfl, rfl⟩
    · exact absurd hf (by simp)
  · intro ⟨h3, hbr, hrj, ham, hae, hlvl⟩
    rw [get_maintenance_alerts]
    rw [(List.perm_insertionSort _ _).mem_iff]
    refine List.mem_filter.2 ⟨?_, ?_⟩
    · refine List.mem_filterMap.2 ⟨a.machine_id, ?_, ?_⟩
      · rw [mem_distinctIds]
        have hpos : 0 < (machineRows jobs now a.machine_id).length := by
          rw [← recentCount]
          omega
        obtain ⟨j, hj⟩ := List.exists_mem_of_ne_nil _ (List.ne_nil_of_length_pos hpos)
        have hj' := List.mem_filter.1 hj
        refine List.mem_map.2 ⟨j, hj'.1, ?_⟩
        simpa using hj'.2
      · rw [if_pos h3]
        obtain ⟨mid, rj, am, ae, lvl⟩ := a
        simp only [] at h3 hbr hrj ham hae hlvl ⊢
        rw [hrj, ham, hae, hlvl]
    · simp only [decide_eq_true_eq]
      rw [ham, hae]
      exact hbr

theorem classifyAlert_cases (m e : ℚ) (hbr : 3600 < m ∨ e < 7/10) :
    (classifyAlert m e = .critical ↔ (3600 < m ∧ e < 7/10)) ∧
    (classifyAlert m e = .highMaintenance ↔ (3600 < m ∧ ¬e < 7/10)) ∧
    (classifyAlert m e = .lowEfficiency ↔ (¬3600 < m ∧ e < 7/10)) ∧
    classifyAlert m e ≠ .normal := by
  by_cases h1 : 3600 < m
  · by_cases h2 : e < 7/10
    · simp [classifyAlert, h1, h2]
    · simp [classifyAlert, h1, h2]
  · by_cases h2 : e < 7/10
    · simp [classifyAlert, h1, h2]
    · exfalso
      rcases hbr with h | h
      · exact h1 h
      · exact h2 h

theorem filterMap_alert_sublist (f : List Char → Option Alert)
    (hf : ∀ m a, f m = some a → a.machine_id = m) :
    ∀ l : List (List Char), ((l.filterMap f).map Alert.machine_id).Sublist l := by
  intro l
  induction l with
  | nil => simp
  | cons m ms ih =>
    cases hm : f m with
    | none =>
      rw [List.filterMap_cons_none hm]
      exact ih.cons m
    | some a =>
      rw [List.filterMap_cons_some hm, List.map_cons, hf m a hm]
      exact ih.cons₂ m

/-- C5: the alerts endpoint returns exactly the machines with at least 3
jobs in the trailing 7 days whose average maintenance time exceeds 3600
seconds or whose average efficiency is below 70%; levels are `CRITICAL`
(both thresholds), `HIGH_MAINTENANCE` (maintenance only), `LOW_EFFICIENCY`
(efficiency only), never `NORMAL`; each machine appears once; the list is
ordered by severity and then by average maintenance time descending. -/
theorem maintenance_alerts_spec (jobs : List MaintJob) (now : Int) :
    (∀ m : List Char,
      (∃ a ∈ get_maintenance_alerts jobs now, a.machine_id = m) ↔
        (3 ≤ recentCount jobs now m ∧
          (3600 < avgMaintenance jobs now m ∨ avgEfficiency jobs now m < 7/10))) ∧
    (∀ a ∈ get_maintenance_alerts jobs now,
      a.recent_jobs = recentCount jobs now a.machine_id ∧
      (a.alert_level = .critical ↔
        (3600 < avgMaintenance jobs now a.machine_id ∧
          avgEfficiency jobs now a.machine_id < 7/10)) ∧
      (a.alert_level = .highMaintenance ↔
        (3600 < avgMaintenance jobs now a.machine_id ∧
          ¬avgEfficiency jobs now a.machine_id < 7/10)) ∧
      (a.alert_level = .lowEfficiency ↔
        (¬3600 < avgMaintenance jobs now a.machine_id ∧
          avgEfficiency jobs now a.machine_id < 7/10)) ∧
      a.alert_level ≠ .normal) ∧
    ((get_maintenance_alerts jobs now).map Alert.machine_id).Nodup ∧
    List.Sorted (fun a b => alertLeB a b = true) (get_maintenance_alerts jobs now) := by
  refine ⟨?_, ?_, ?_, ?_⟩
  · intro m
    constructor
    · rintro ⟨a, ha, rfl⟩
      have hc := (mem_alerts_iff jobs now a).1 ha
      exact ⟨hc.1, hc.2.1⟩
    · rintro ⟨h3, hbr⟩
      have hmem := (mem_alerts_iff jobs now
        { machine_id := m, recent_jobs := recentCount jobs now m,
          avg_maintenance := avgMaintenance jobs now m,
          avg_efficiency := avgEfficiency jobs now m,
          alert_level := classifyAlert (avgMaintenance jobs now m)
            (avgEfficiency jobs now m) }).2 ⟨h3, hbr, rfl, rfl, rfl, rfl⟩
      exact ⟨_, hmem, rfl⟩
  · intro a ha
    obtain ⟨h3, hbr, hrj, _, _, hlvl⟩ := (mem_alerts_iff jobs now a).1 ha
    obtain ⟨hc, hh, hl, hn⟩ := classifyAlert_cases _ _ hbr
    rw [hlvl]
    exact ⟨hrj, hc, hh, hl, hn⟩
  · rw [get_maintenance_alerts]
    refine (((List.perm_insertionSort _ _).map Alert.machine_id).nodup_iff).2 ?_
    exact ((distinctIds_nodup _).sublist
        (filterMap_alert_sublist _ (fun m a hma => by
          simp only [] at hma
          split at hma
          · injection hma with h
            rw [← h]
          · exact absurd hma (by simp)) _)).sublist
      ((List.filter_sublist _).map Alert.machine_id)
  · rw [get_maintenance_alerts]
    exact List.sorted_insertionSort _ _

/-- C5 witness: a machine with three trailing-window jobs, average
maintenance 4000 s and efficiency 60 %, appears in the alert list. -/
theorem maintenance_alerts_spec_witness :
    ∃ a ∈ get_maintenance_alerts
      [{ machine_id := "M".toList, start_ts := 0, created_ts := 0, maintenance_time := 4000,
         running_time := 6, job_duration := 10, parts_produced := 0 },
       { machine_id := "M".toList, start_ts := 0, created_ts := 0, maintenance_time := 4000,
         running_time := 6, job_duration := 10, parts_produced := 0 },
       { machine_id := "M".toList, start_ts := 0, created_ts := 0, maintenance_time := 4000,
         running_time := 6, job_duration := 10, parts_produced := 0 }] 0,
      a.machine_id = "M".toList := by
  refine ((maintenance_alerts_spec _ 0).1 "M".toList).2 ⟨by decide, Or.inl ?_⟩
  have h : avgMaintenance
      [{ machine_id := "M".toList, start_ts := 0, created_ts := 0, maintenance_time := 4000,
         running_time := 6, job_duration := 10, parts_produced := 0 },
       { machine_id := "M".toList, start_ts := 0, created_ts := 0, maintenance_time := 4000,
         running_time := 6, job_duration := 10, parts_produced := 0 },
       { machine_id := "M".toList, start_ts := 0, created_ts := 0, maintenance_time := 4000,
         running_time := 6, job_duration := 10, parts_produced := 0 }] 0 "M".toList = 4000 := by
    with_unfolding_all rfl
  rw [h]
  norm_num

end MSML
